import Mathlib

/-!
Shallow embedding of the Telegram sales-manager assignment bot
(`apps/telegram_assignment_bot/assignment_bot/storage.py` and `bot.py`).

The SQLite tables (`users`, `chats`, `assignments`, `item_drafts`) are
embedded as lists of rows inside a `Store`; an `INSERT` appends a row, an
`UPDATE ... WHERE` maps over the rows, and a `SELECT ... WHERE x = ?` with
`fetchone` is `List.find?`.  A storage method that raises `AssignmentError`
returns `Except String Store`; since the sqlite connection helper commits
only on a clean exit and a connection closed mid-transaction rolls back,
an `.error` result leaves the caller's store unchanged, which is modelled
by collapsing `.error` to the pre-state wherever a handler catches it.

Wall-clock timestamps (`_utcnow`) are passed in as an opaque `now` string.
Network calls (credential verification, ERPNext resource fetches, customer
and item creation) are external; their outcomes are oracle parameters on
the corresponding events.  Python string truthiness (`None` and `""` are
falsy) is modelled explicitly where the source relies on it.
-/

namespace AssignBot

/-- Python truthiness of an optional string: `None` and `""` are falsy. -/
def optTruthy : Option String → Bool
  | none => false
  | some s => s != ""

/-- `assignment.get("credentials_status") or "pending_key"` from `bot.py`:
the stored status, with `None` and `""` replaced by `"pending_key"`. -/
def pyStatusOr (o : Option String) : String :=
  match o with
  | none => "pending_key"
  | some s => if s = "" then "pending_key" else s

/-- Python `str.strip()`: drop leading and trailing whitespace. -/
def pyStrip (s : String) : String :=
  String.mk (((s.data.dropWhile Char.isWhitespace).reverse.dropWhile
    Char.isWhitespace).reverse)

/-- Splitting a character list at every whitespace character. -/
def wsSplitAux : List Char → List Char → List (List Char)
  | [], acc => [acc.reverse]
  | c :: cs, acc =>
    if c.isWhitespace then acc.reverse :: wsSplitAux cs []
    else wsSplitAux cs (c :: acc)

/-- Python `str.split()` with no separator: split on whitespace runs,
dropping empty pieces. -/
def pySplit (t : String) : List String :=
  ((wsSplitAux t.data []).map String.mk).filter (fun p => p != "")

/-- Python `str.lower()` (the credential options and choice lists are
ASCII, where this agrees with Lean's `Char.toLower`). -/
def pyLower (s : String) : String := String.mk (s.data.map Char.toLower)

/-- Python `str.startswith(pre)`. -/
def pyStartsWith (s pre : String) : Bool := pre.data.isPrefixOf s.data

/-- Dropping the first `n` characters of a string
(`action.split("_", 1)[1]` for the fixed 5-character action verbs). -/
def pyDrop (s : String) (n : Nat) : String := String.mk (s.data.drop n)

/-- Code-point (UTF-8 byte order, SQLite BINARY collation) strict
lexicographic comparison of character lists. -/
def charListLt : List Char → List Char → Bool
  | _, [] => false
  | [], _ :: _ => true
  | a :: as, b :: bs =>
    decide (a < b) || (decide (a = b) && charListLt as bs)

/-- BINARY-collation `≤` on strings. -/
def strLeB (a b : String) : Bool := !charListLt b.data a.data

/-- BINARY-collation `<` on strings. -/
def strLtB (a b : String) : Bool := charListLt a.data b.data

/-- SQLite `TRIM(x)`: strips space characters (0x20) from both ends. -/
def sqliteTrim (s : String) : String :=
  String.mk (((s.data.dropWhile (fun c => c = ' ')).reverse.dropWhile
    (fun c => c = ' ')).reverse)

/-- Character class `[A-Fa-f0-9]` of the credential regexes in `bot.py`. -/
def isHexChar (c : Char) : Bool :=
  (decide ('0' ≤ c) && decide (c ≤ '9'))
    || (decide ('a' ≤ c) && decide (c ≤ 'f'))
    || (decide ('A' ≤ c) && decide (c ≤ 'F'))

/-- `AssignmentBot._validate_api_key`: `re.fullmatch(r"[A-Fa-f0-9]{15}", v)`. -/
def validate_api_key (v : String) : Bool :=
  v.length == 15 && v.data.all isHexChar

/-- `AssignmentBot._validate_api_secret`:
`re.fullmatch(r"[A-Fa-f0-9]{15,16}", v)`. -/
def validate_api_secret (v : String) : Bool :=
  (decide (15 ≤ v.length) && decide (v.length ≤ 16)) && v.data.all isHexChar

/-- A row of the `users` table. -/
structure UserRow where
  telegram_id : Int
  username : Option String
  first_name : Option String
  last_name : Option String
  started_at : String
  updated_at : String
deriving DecidableEq

/-- A row of the `chats` table. -/
structure ChatRow where
  chat_id : Int
  title : Option String
  created_at : String
  updated_at : String
deriving DecidableEq

/-- A row of the `assignments` table. -/
structure AssignmentRow where
  chat_id : Int
  user_id : Int
  assigned_at : String
  api_key : Option String
  api_secret : Option String
  credentials_status : Option String
  customer_docname : Option String
deriving DecidableEq

/-- The JSON state blob of a row of `item_drafts`, modelled structurally:
`stage`, the `data` fields, the owning `chat_id`, the cached `choices`
lists and the per-kind `pages` entries (`none` = key absent). -/
structure Draft where
  stage : String
  itemCode : Option String
  itemName : Option String
  itemGroup : Option String
  stockUom : Option String
  chatId : Option Int
  itemGroups : Option (List String)
  uoms : Option (List String)
  pageItemGroup : Option Int
  pageUom : Option Int
deriving DecidableEq

/-- A row of the `item_drafts` table. -/
structure DraftRow where
  user_id : Int
  state : Draft
  updated_at : String
deriving DecidableEq

/-- The whole database. -/
structure Store where
  users : List UserRow
  chats : List ChatRow
  assignments : List AssignmentRow
  drafts : List DraftRow
deriving DecidableEq

/-- The freshly initialised (empty) database. -/
def Store.empty : Store := ⟨[], [], [], []⟩

/-- The `Candidate` dataclass of `storage.py`. -/
structure Candidate where
  telegram_id : Int
  username : Option String
  first_name : Option String
  last_name : Option String
  started_at : String
deriving DecidableEq

/-- `Candidate.display_label`: full name from the truthy name parts, else
`@username` when the username is truthy, else the numeric id. -/
def Candidate.display_label (c : Candidate) : String :=
  let name_parts := ([c.first_name, c.last_name].filterMap id).filter
    (fun p => p != "")
  if !name_parts.isEmpty then " ".intercalate name_parts
  else
    match c.username with
    | some u => if u != "" then "@" ++ u else toString c.telegram_id
    | none => toString c.telegram_id

def toCandidate (u : UserRow) : Candidate :=
  ⟨u.telegram_id, u.username, u.first_name, u.last_name, u.started_at⟩

/-- `AssignmentStorage.record_user` (and its wrapper
`record_private_user`): update the row if the user exists, insert it
otherwise.  The created-for-the-first-time boolean return is used only for
logging and is dropped here. -/
def record_user (s : Store) (now : String) (telegram_id : Int)
    (username first_name last_name : Option String) : Store :=
  match s.users.find? (fun u => u.telegram_id = telegram_id) with
  | some _ =>
    { s with users := s.users.map (fun u =>
        if u.telegram_id = telegram_id then
          { u with username := username, first_name := first_name,
                   last_name := last_name, updated_at := now }
        else u) }
  | none =>
    { s with users :=
        s.users ++ [⟨telegram_id, username, first_name, last_name, now, now⟩] }

/-- `AssignmentStorage.get_user`. -/
def get_user (s : Store) (telegram_id : Int) : Option Candidate :=
  (s.users.find? (fun u => u.telegram_id = telegram_id)).map toCandidate

/-- `AssignmentStorage.record_group_chat`: on update the title is
`COALESCE(?, title)`, i.e. a `None` title never erases a stored one. -/
def record_group_chat (s : Store) (now : String) (chat_id : Int)
    (title : Option String) : Store :=
  match s.chats.find? (fun c => c.chat_id = chat_id) with
  | some _ =>
    { s with chats := s.chats.map (fun c =>
        if c.chat_id = chat_id then
          { c with title := title.orElse (fun _ => c.title), updated_at := now }
        else c) }
  | none =>
    { s with chats := s.chats ++ [⟨chat_id, title, now, now⟩] }

/-- `AssignmentStorage.assign_sales_manager`.  The chat row is inserted
first when missing; then the three invariant checks run inside the same
transaction and an `AssignmentError` rolls everything (including that
insert) back, so `.error` stands for "store unchanged". -/
def assign_sales_manager (s : Store) (now : String) (chat_id user_id : Int) :
    Except String Store :=
  let s1 : Store :=
    match s.chats.find? (fun c => c.chat_id = chat_id) with
    | some _ => s
    | none => { s with chats := s.chats ++ [⟨chat_id, none, now, now⟩] }
  if (s1.users.find? (fun u => u.telegram_id = user_id)).isNone then
    .error "Foydalanuvchi botga shaxsiy chatda /start yubormagan."
  else if (s1.assignments.find? (fun a => a.chat_id = chat_id)).isSome then
    .error "Bu guruh uchun sales manager allaqachon tanlangan."
  else if (s1.assignments.find? (fun a => a.user_id = user_id)).isSome then
    .error "Bu foydalanuvchi boshqa guruhda sales manager sifatida tayinlangan."
  else
    .ok { s1 with assignments := s1.assignments ++
          [⟨chat_id, user_id, now, none, none, some "pending_key", none⟩] }

/-- The per-row effect of the `store_api_key` UPDATE. -/
def updKey (api_key : String) (user_id : Int) (a : AssignmentRow) :
    AssignmentRow :=
  if a.user_id = user_id then
    { a with api_key := some api_key,
             credentials_status := some "pending_secret" }
  else a

/-- `AssignmentStorage.store_api_key`: `UPDATE assignments SET api_key,
credentials_status = 'pending_secret' WHERE user_id = ?`, raising when the
update touches no row. -/
def store_api_key (s : Store) (user_id : Int) (api_key : String) :
    Except String Store :=
  if s.assignments.any (fun a => a.user_id = user_id) then
    .ok { s with assignments := s.assignments.map (updKey api_key user_id) }
  else .error "Foydalanuvchi sales manager sifatida topilmadi."

/-- The per-row effect of the `store_api_secret` UPDATE: the status becomes
`active` when verified, `pending_secret` otherwise. -/
def updSecret (api_secret : String) (verified : Bool) (user_id : Int)
    (a : AssignmentRow) : AssignmentRow :=
  if a.user_id = user_id then
    { a with api_secret := some api_secret,
             credentials_status :=
               some (if verified then "active" else "pending_secret") }
  else a

/-- `AssignmentStorage.store_api_secret`: stores the secret and sets the
status to `active` when verified, `pending_secret` otherwise. -/
def store_api_secret (s : Store) (user_id : Int) (api_secret : String)
    (verified : Bool) : Except String Store :=
  if s.assignments.any (fun a => a.user_id = user_id) then
    .ok { s with assignments :=
            s.assignments.map (updSecret api_secret verified user_id) }
  else .error "Foydalanuvchi sales manager sifatida topilmadi."

/-- The per-row effect of the `reset_credentials` UPDATE. -/
def updReset (user_id : Int) (a : AssignmentRow) : AssignmentRow :=
  if a.user_id = user_id then
    { a with api_key := none, api_secret := none,
             credentials_status := some "pending_key" }
  else a

/-- `AssignmentStorage.reset_credentials`: clears both credentials and
returns the status to `pending_key`. -/
def reset_credentials (s : Store) (user_id : Int) : Except String Store :=
  if s.assignments.any (fun a => a.user_id = user_id) then
    .ok { s with assignments := s.assignments.map (updReset user_id) }
  else .error "Foydalanuvchi sales manager sifatida topilmadi."

/-- `AssignmentStorage.reset_all` (test helper): deletes assignments,
chats and users. -/
def reset_all (s : Store) : Store :=
  { s with assignments := [], chats := [], users := [] }

/-- `AssignmentStorage.clear_all_assignments`: `DELETE FROM assignments`,
keeping every other table. -/
def clear_all_assignments (s : Store) : Store :=
  { s with assignments := [] }

/-- `AssignmentStorage.get_item_draft`. -/
def get_item_draft (s : Store) (user_id : Int) : Option Draft :=
  (s.drafts.find? (fun d => d.user_id = user_id)).map (fun d => d.state)

/-- `AssignmentStorage.save_item_draft`: `INSERT ... ON CONFLICT(user_id)
DO UPDATE`, i.e. an upsert keyed by user id. -/
def save_item_draft (s : Store) (now : String) (user_id : Int)
    (state : Draft) : Store :=
  match s.drafts.find? (fun d => d.user_id = user_id) with
  | some _ =>
    { s with drafts := s.drafts.map (fun d =>
        if d.user_id = user_id then
          { d with state := state, updated_at := now }
        else d) }
  | none =>
    { s with drafts := s.drafts ++ [⟨user_id, state, now⟩] }

/-- `AssignmentStorage.delete_item_draft`. -/
def delete_item_draft (s : Store) (user_id : Int) : Store :=
  { s with drafts := s.drafts.filter (fun d => !(d.user_id = user_id : Bool)) }

/-- The per-row effect of the `store_customer_doc` UPDATE. -/
def updCustomer (docname : String) (chat_id : Int) (a : AssignmentRow) :
    AssignmentRow :=
  if a.chat_id = chat_id then { a with customer_docname := some docname }
  else a

/-- `AssignmentStorage.store_customer_doc`: `UPDATE assignments SET
customer_docname = ? WHERE chat_id = ?` (no row-count check). -/
def store_customer_doc (s : Store) (chat_id : Int) (docname : String) : Store :=
  { s with assignments := s.assignments.map (updCustomer docname chat_id) }

/-- An SQLite scalar as produced by the `ORDER BY` key of
`list_unassigned_users`: either an integer or a text value. -/
inductive SqlVal where
  | int (i : Int)
  | str (s : String)
deriving DecidableEq

/-- SQLite ordering on the key values: integers sort before text, text
compares with the default BINARY collation (code-point order, which for
UTF-8 agrees with byte order). -/
def SqlVal.le : SqlVal → SqlVal → Prop
  | .int a, .int b => a ≤ b
  | .int _, .str _ => True
  | .str _, .int _ => False
  | .str a, .str b => strLeB a b = true

instance SqlVal.decLe : (a b : SqlVal) → Decidable (SqlVal.le a b)
  | .int a, .int b => inferInstanceAs (Decidable (a ≤ b))
  | .int _, .str _ => .isTrue trivial
  | .str _, .int _ => .isFalse (fun h => h)
  | .str a, .str b => inferInstanceAs (Decidable (strLeB a b = true))

/-- The `ORDER BY` expression of `list_unassigned_users`:
`COALESCE(NULLIF(TRIM(first_name || ' ' || IFNULL(last_name, '')), ''),
username, telegram_id)`.  String concatenation with SQL `NULL` is `NULL`,
so a `NULL` first name sends the key straight to the username fallback. -/
def orderKey (u : UserRow) : SqlVal :=
  let fallback : SqlVal :=
    match u.username with
    | some un => .str un
    | none => .int u.telegram_id
  match u.first_name with
  | none => fallback
  | some f =>
    let t := sqliteTrim (f ++ " " ++ (u.last_name.getD ""))
    if t = "" then fallback else .str t

/-- The same key computed on a `Candidate` (the fields are identical). -/
def candKey (c : Candidate) : SqlVal :=
  let fallback : SqlVal :=
    match c.username with
    | some un => .str un
    | none => .int c.telegram_id
  match c.first_name with
  | none => fallback
  | some f =>
    let t := sqliteTrim (f ++ " " ++ (c.last_name.getD ""))
    if t = "" then fallback else .str t

def rowLe (a b : UserRow) : Prop := SqlVal.le (orderKey a) (orderKey b)

instance : DecidableRel rowLe := fun a b =>
  inferInstanceAs (Decidable (SqlVal.le (orderKey a) (orderKey b)))

/-- Whether user `u` has no row in `assignments` referencing it. -/
def unassignedIn (s : Store) (u : UserRow) : Bool :=
  !(s.assignments.any (fun a => a.user_id = u.telegram_id))

/-- `AssignmentStorage.list_unassigned_users`: users with no assignment
row (`LEFT JOIN ... WHERE a.user_id IS NULL`), sorted by `orderKey` and
capped at `limit`.  SQLite leaves the relative order of equal keys
unspecified; the model fixes it as the stable insertion sort over the
table's insertion order. -/
def list_unassigned_users (s : Store) (limit : Nat) : List Candidate :=
  (((s.users.filter (unassignedIn s)).insertionSort rowLe).take limit).map
    toCandidate

/-- The dictionary returned by `get_group_assignment` /
`get_user_assignment`: the assignment row joined with its chat and user
rows. -/
structure AssignmentView where
  chat_id : Int
  user_id : Int
  assigned_at : String
  api_key : Option String
  api_secret : Option String
  credentials_status : Option String
  customer_docname : Option String
  title : Option String
  username : Option String
  first_name : Option String
  last_name : Option String
deriving DecidableEq

def mkView (a : AssignmentRow) (c : ChatRow) (u : UserRow) : AssignmentView :=
  ⟨a.chat_id, a.user_id, a.assigned_at, a.api_key, a.api_secret,
   a.credentials_status, a.customer_docname, c.title, u.username,
   u.first_name, u.last_name⟩

/-- `AssignmentStorage.get_group_assignment`: the assignment for a chat,
inner-joined with `chats` and `users`. -/
def get_group_assignment (s : Store) (chat_id : Int) : Option AssignmentView :=
  match s.assignments.find? (fun a => a.chat_id = chat_id) with
  | none => none
  | some a =>
    match s.chats.find? (fun c => c.chat_id = a.chat_id),
          s.users.find? (fun u => u.telegram_id = a.user_id) with
    | some c, some u => some (mkView a c u)
    | _, _ => none

/-- `AssignmentStorage.get_user_assignment`: the assignment referencing a
user, inner-joined with `chats` and `users`. -/
def get_user_assignment (s : Store) (telegram_id : Int) :
    Option AssignmentView :=
  match s.assignments.find? (fun a => a.user_id = telegram_id) with
  | none => none
  | some a =>
    match s.chats.find? (fun c => c.chat_id = a.chat_id),
          s.users.find? (fun u => u.telegram_id = a.user_id) with
    | some c, some u => some (mkView a c u)
    | _, _ => none

/-- `AssignmentBot._format_assignment_label`: truthy name parts joined by
a space, else `@username` when truthy, else `str(user_id)`. -/
def format_assignment_label (v : AssignmentView) : String :=
  let label := " ".intercalate
    (([v.first_name, v.last_name].filterMap id).filter (fun p => p != ""))
  let label := if label = "" && optTruthy v.username then
    "@" ++ (v.username.getD "") else label
  if label = "" then toString v.user_id else label

/-- `AssignmentBot._match_choice`: with an empty cached list any text is
returned as-is; otherwise the first option equal to the text under
`str.lower` on both sides, else `None`. -/
def match_choice (text_value : String) (choices : List String) :
    Option String :=
  if choices.isEmpty then some text_value
  else choices.find? (fun option => pyLower option = pyLower text_value)

/-- Python truthiness of `_match_choice`'s result as used by the callers
(`if not selected`): `None` and `""` are rejections. -/
def choiceRejected (o : Option String) : Bool :=
  match o with
  | none => true
  | some sel => sel = ""

/-- `AssignmentBot._derive_customer_name`: with a truthy title, drop the
first two whitespace tokens when there are more than two, else keep the
whole title; strip it and fall back to `Auto Customer <chat_id>` when the
result (or the title itself) is empty. -/
def derive_customer_name (title : Option String) (chat_id : Int) : String :=
  let synthetic := "Auto Customer " ++ toString chat_id
  match title with
  | none => synthetic
  | some t =>
    if t != "" then
      let parts := pySplit t
      let candidate := if parts.length > 2 then
        " ".intercalate (parts.drop 2) else t
      let c := pyStrip candidate
      if c != "" then c else synthetic
    else synthetic

/-- `CHOICE_PAGE_SIZE` in `bot.py`. -/
def CHOICE_PAGE_SIZE : Nat := 6

/-- `max_page = max(0, (len(choices) - 1) // CHOICE_PAGE_SIZE)` from
`_send_choice_keyboard` (natural subtraction already clamps at 0). -/
def choice_max_page (n : Nat) : Nat := (n - 1) / CHOICE_PAGE_SIZE

/-- `page = max(0, min(page, max_page))` from `_send_choice_keyboard`. -/
def clamp_page (requested : Int) (n : Nat) : Nat :=
  (max 0 (min requested (choice_max_page n : Int))).toNat

/-- `CHOICE_CONFIG` lookup: the `choices_key` for a kind. -/
def choiceConfigKey (kind : String) : Option String :=
  if kind = "item_group" then some "item_groups"
  else if kind = "uom" then some "uoms"
  else none

/-- `(draft.get("choices") or {}).get(key, [])`. -/
def draftChoices (d : Draft) (key : String) : List String :=
  if key = "item_groups" then d.itemGroups.getD []
  else if key = "uoms" then d.uoms.getD []
  else []

/-- `draft.setdefault("pages", {}).get(kind, 0)` as an optional value. -/
def draftPage (d : Draft) (kind : String) : Option Int :=
  if kind = "item_group" then d.pageItemGroup
  else if kind = "uom" then d.pageUom
  else none

/-- `draft.setdefault("pages", {})[kind] = page`. -/
def draftSetPage (d : Draft) (kind : String) (page : Int) : Draft :=
  if kind = "item_group" then { d with pageItemGroup := some page }
  else if kind = "uom" then { d with pageUom := some page }
  else d

/-- Observable side effects of one handler invocation.  `reply` is
`message.reply_text` to the originating conversation, `send` is
`bot.send_message`, `editText` is `query.edit_message_text`, `alert` is a
`query.answer(..., show_alert=True)` rejection (plain acknowledgements are
not recorded), `verifyCall` records that `_verify_credentials` was invoked
with the given pair, `menu` is a rendered choice keyboard (kind, displayed
page, page count, total option count, options shown), `dm` is the private
congratulation message, and `raised` is an uncaught `AssignmentError`
(logged by the error handler; the failing transaction is rolled back). -/
inductive Out where
  | reply (uid : Int) (text : String)
  | send (chatId : Int) (text : String)
  | editText (text : String)
  | alert (text : String)
  | verifyCall (key secret : String)
  | menu (kind : String) (page : Nat) (pageCount : Nat) (total : Nat)
      (shown : List String)
  | dm (uid : Int) (text : String)
  | raised (text : String)
deriving DecidableEq

/-- Outcomes of the external ERPNext calls made during the item-draft
workflow, passed in as oracles: each mirrors the `(success, detail, ...)`
tuples returned by the fetch helpers and `_create_item`. -/
structure ProgressExt where
  fetchGroups : Bool × Option String × List String
  fetchUoms : Bool × Option String × List String
  createItem : Bool × Option String

/-- `extra = f"\nMa'lumot: {detail}" if detail else ""`. -/
def detailExtra (detail : Option String) : String :=
  match detail with
  | some d => if d != "" then "\nMa\x27lumot: " ++ d else ""
  | none => ""

/-- `AssignmentBot._send_choice_keyboard`, reduced to its observable
output: nothing for an unknown kind, a placeholder text for an empty
cached list, otherwise the clamped page with its slice of options.  The
clamped page is written back only into the in-memory dict, which no caller
persists, so the store is untouched. -/
def send_choice_keyboard (kind : String) (d : Draft) : List Out :=
  match choiceConfigKey kind with
  | none => []
  | some key =>
    let choices := draftChoices d key
    if choices.isEmpty then [.editText "Tanlash uchun ma\x27lumot topilmadi."]
    else
      let n := choices.length
      let page := clamp_page ((draftPage d kind).getD 0) n
      let start := page * CHOICE_PAGE_SIZE
      [.menu kind page (choice_max_page n + 1) n
        ((choices.drop start).take CHOICE_PAGE_SIZE)]

/-- `AssignmentBot._ensure_customer_exists`.  The find-or-create round
trip against ERPNext is the oracle `extDoc`: the docname it yielded, or
`none` when both lookup and creation failed (the failure is only logged).
A truthy stored docname, a falsy key/secret or a missing base URL skip the
step entirely. -/
def ensure_customer_exists (s : Store) (v : AssignmentView)
    (api_key api_secret : Option String) (extDoc : Option String)
    (hasBaseUrl : Bool) : Store × List Out :=
  if optTruthy v.customer_docname then (s, [])
  else if !optTruthy api_key || !optTruthy api_secret then (s, [])
  else if !hasBaseUrl then (s, [])
  else
    match extDoc with
    | none => (s, [])
    | some docname =>
      let customer_name := derive_customer_name v.title v.chat_id
      (store_customer_doc s v.chat_id docname,
       [.send v.chat_id ("Yangi mijoz yaratildi: " ++ customer_name ++
          " (" ++ docname ++ ").")])

/-- `AssignmentBot._prompt_item_group`: fetch the Item Group names; on
failure or an empty list delete the draft with an error message, else
store the list, reset the page, default the owning chat and render. -/
def prompt_item_group (s : Store) (now : String) (user_id : Int) (d : Draft)
    (msgChatId : Int) (ext : ProgressExt) : Store × List Out :=
  let (ok, detail, groups) := ext.fetchGroups
  if !ok || groups.isEmpty then
    (delete_item_draft s user_id,
     [.reply user_id ("Item group ro\x27yxatini olishda xatolik yuz berdi." ++
        detailExtra detail)])
  else
    let d1 := { d with stage := "await_item_group",
                       itemGroups := some groups,
                       pageItemGroup := some 0,
                       chatId := d.chatId.orElse (fun _ => some msgChatId) }
    (save_item_draft s now user_id d1,
     send_choice_keyboard "item_group" d1)

/-- `AssignmentBot._prompt_uom`: same policy for the UOM list (the extra
inline-search hint message is irrelevant to the store and omitted). -/
def prompt_uom (s : Store) (now : String) (user_id : Int) (d : Draft)
    (ext : ProgressExt) : Store × List Out :=
  let (ok, detail, uoms) := ext.fetchUoms
  if !ok || uoms.isEmpty then
    (delete_item_draft s user_id,
     [.reply user_id
        ("O\x27lchov birliklari ro\x27yxatini olishda xatolik yuz berdi." ++
         detailExtra detail)])
  else
    let d1 := { d with stage := "await_uom",
                       uoms := some uoms,
                       pageUom := some 0 }
    (save_item_draft s now user_id d1,
     send_choice_keyboard "uom" d1)

/-- `AssignmentBot._progress_item_creation`: the four-stage state machine
over the draft.  `data["item_code"]`-style direct indexing at the final
stage raises `KeyError` when a field is missing; that propagates to the
error handler with the transaction untouched, modelled as `.raised`. -/
def progress_item_creation (s : Store) (now : String) (user_id : Int)
    (v : AssignmentView) (d : Draft) (text : String) (msgChatId : Int)
    (ext : ProgressExt) : Store × List Out :=
  if !optTruthy v.api_key || !optTruthy v.api_secret then
    (delete_item_draft s user_id,
     [.reply user_id
        "API credentiallari topilmadi. Avval ularni qayta kiriting."])
  else
    let text_value := pyStrip text
    if text_value = "" then
      (s, [.reply user_id "Bo\x27sh qiymat qabul qilinmaydi. Qaytadan kiriting."])
    else if d.stage = "await_item_code" then
      let d1 := { d with itemCode := some text_value,
                         stage := "await_item_name" }
      (save_item_draft s now user_id d1,
       [.reply user_id "2-qadam: Item Name ni kiriting."])
    else if d.stage = "await_item_name" then
      prompt_item_group s now user_id { d with itemName := some text_value }
        msgChatId ext
    else if d.stage = "await_item_group" then
      let choices := d.itemGroups.getD []
      let selected := match_choice text_value choices
      if choiceRejected selected then
        (s, [.reply user_id
          "Noto\x27g\x27ri item group. Ro\x27yxatdan birini tanlang yoki aniq nomini kiriting."])
      else
        prompt_uom s now user_id
          { d with itemGroup := some (selected.getD "") } ext
    else if d.stage = "await_uom" then
      let choices := d.uoms.getD []
      let selected := match_choice text_value choices
      if choiceRejected selected then
        (s, [.reply user_id
          "Noto\x27g\x27ri o\x27lchov birligi. Ro\x27yxatdan birini tanlang yoki aniq nomini kiriting."])
      else
        match d.itemCode, d.itemName, d.itemGroup with
        | some code, some name, some group =>
          let (ok, detail) := ext.createItem
          if ok then
            (delete_item_draft s user_id,
             [.reply user_id ("Item ERPNext ga muvaffaqiyatli yaratildi.\n" ++
                "Item Code: " ++ code ++ "\nItem Name: " ++ name ++
                "\nItem Group: " ++ group ++ "\nUOM: " ++ (selected.getD ""))])
          else
            (s, [.reply user_id ("Item yaratishda xatolik yuz berdi." ++
                   detailExtra detail)])
        | _, _, _ => (s, [.raised "KeyError"])
    else
      (delete_item_draft s user_id,
       [.reply user_id "Jarayon topilmadi. /new orqali qayta boshlang."])

/-- `assignment.get("title") or assignment.get("chat_id")` rendered into
the `/start` greeting. -/
def groupLabel (v : AssignmentView) : String :=
  match v.title with
  | some t => if t != "" then t else toString v.chat_id
  | none => toString v.chat_id

/-- `AssignmentBot.handle_start` in a private chat: record the user and
greet according to the credential state. -/
def handle_start_private (s : Store) (now : String) (uid : Int)
    (username first_name last_name : Option String) : Store × List Out :=
  let s1 := record_user s now uid username first_name last_name
  let greeting :=
    match get_user_assignment s1 uid with
    | some v =>
      let status := pyStatusOr v.credentials_status
      if status = "pending_key" then
        "Siz \"" ++ groupLabel v ++
          "\" guruhida sales manager sifatida tayinlandingiz.\n" ++
          "Iltimos ERPNext profilidan API kalitni (masalan: 3739e78cec4e139) yozib yuboring."
      else if status = "pending_secret" then
        "API kalit saqlangan. Endi ERPNext profilidagi API secret ni yuboring (masalan: 2a428d03deaceb8)."
      else
        "ERPNext API kalitlari saqlangan. Agar yangilash kerak bo\x27lsa, admin bilan bog\x27laning."
    | none =>
      "Assalomu alaykum!\n\nSales manager tanlovi admin tomonidan amalga oshirilgach, bot sizga shaxsiy xabar yuboradi."
  (s1, [.send uid greeting])

/-- `AssignmentBot.handle_start` in a group chat: record the user and the
chat. -/
def handle_start_group (s : Store) (now : String) (uid : Int)
    (username first_name last_name : Option String) (chatId : Int)
    (title : Option String) : Store × List Out :=
  let s1 := record_user s now uid username first_name last_name
  let s2 := record_group_chat s1 now chatId title
  (s2, [.reply uid
    "Salom! Bu bot orqali guruh uchun bitta sales manager tayinlanadi.\nAdmin uchun buyruq: /assign_manager"])

/-- `AssignmentBot.handle_private_message`: the credential handshake.  The
outcome of `_verify_credentials` is the oracle pair
`(verifyOk, verifyDetail)` (a missing base URL makes it succeed inside the
helper); `extDoc`/`hasBaseUrl` feed the `_ensure_customer_exists` step on
the verified path. -/
def handle_private_message (s : Store) (uid : Int) (rawText : String)
    (verifyOk : Bool) (verifyDetail : Option String) (extDoc : Option String)
    (hasBaseUrl : Bool) : Store × List Out :=
  let text := pyStrip rawText
  if text = "" then (s, [])
  else
    match get_user_assignment s uid with
    | none => (s, [.reply uid "Siz sales manager sifatida tayinlanmagansiz."])
    | some v =>
      let status := pyStatusOr v.credentials_status
      if status = "pending_key" then
        if !validate_api_key text then
          (s, [.reply uid "API kalit formati noto\x27g\x27ri. Masalan: 3739e78cec4e139"])
        else
          match store_api_key s uid text with
          | .ok s1 =>
            (s1, [.reply uid "API kalit saqlandi. Endi API secret key yuboring."])
          | .error e => (s, [.raised e])
      else if status = "pending_secret" then
        if !validate_api_secret text then
          (s, [.reply uid "API secret formati noto\x27g\x27ri. Masalan: 2a428d03deaceb8 (15-16 ta hex belgi)"])
        else
          let api_key := v.api_key.getD ""
          match store_api_secret s uid text verifyOk with
          | .error e => (s, [.verifyCall api_key text, .raised e])
          | .ok s1 =>
            let label := format_assignment_label v
            if verifyOk then
              let r2 := ensure_customer_exists s1 v (some api_key) (some text)
                extDoc hasBaseUrl
              (r2.1, [.verifyCall api_key text,
                      .reply uid "API kalit muvaffaqqiyatli kiritildi.\nERPNext bilan ham muvaffaqqiyatli ulandi."]
                ++ r2.2
                ++ [.send v.chat_id (label ++ " ERPNext API kalitlarini kiritdi.")])
            else
              (s1, [.verifyCall api_key text,
                    .reply uid ("API secret saqlandi, biroq ERPNext bilan ulanish amalga oshmadi. Lutfan ma\x27lumotlarni tekshiring." ++
                      detailExtra verifyDetail),
                    .send v.chat_id (label ++
                      " API ma\x27lumotlarini yubordi, ammo ERPNext bilan ulanish amalga oshmadi.")])
      else
        (s, [.reply uid "API ma\x27lumotlari allaqachon saqlangan. Yangi Item jarayonini guruhda /new orqali boshlang."])

/-- `AssignmentBot.handle_reset_api` (private chat only): reset the
credentials and notify the assigned chat. -/
def handle_reset_api (s : Store) (uid : Int) : Store × List Out :=
  match get_user_assignment s uid with
  | none => (s, [.reply uid "Sizga hali guruh biriktirilmagan."])
  | some v =>
    match reset_credentials s uid with
    | .error e => (s, [.raised e])
    | .ok s1 =>
      (s1, [.reply uid "API kalitlari reset qilindi. Iltimos, yangi API kalitni yuboring.",
            .send v.chat_id (format_assignment_label v ++
              " API kalitlarini yangilamoqda.")])

/-- `AssignmentBot.handle_clear_assignments`: admin-only bulk clear. -/
def handle_clear_assignments (s : Store) (uid : Int) (adminOk : Bool) :
    Store × List Out :=
  if !adminOk then (s, [.reply uid "Bu buyruq faqat adminlar uchun."])
  else
    (clear_all_assignments s,
     [.reply uid "Barcha sales manager tayinlovlari va API ma\x27lumotlari o\x27chirildi."])

/-- `AssignmentBot.handle_assign_command` in a group: record the chat and
either report the existing assignment or offer the candidate menu. -/
def handle_assign_command (s : Store) (now : String) (chatId uid : Int)
    (title : Option String) (adminOk : Bool) : Store × List Out :=
  if !adminOk then (s, [.reply uid "Bu buyruq faqat administrator uchun."])
  else
    let s1 := record_group_chat s now chatId title
    match get_group_assignment s1 chatId with
    | some existing =>
      (s1, [.reply uid ("Bu guruh uchun allaqachon sales manager tayinlangan: " ++
              format_assignment_label existing ++ ".")])
    | none =>
      let candidates := list_unassigned_users s1 25
      if candidates.isEmpty then
        (s1, [.reply uid "Hali hech kim botga shaxsiy chatda /start yubormagan. Iltimos, nomzodlar /start yuborsin."])
      else
        (s1, [.reply uid "Sales manager qilib tayinlamoqchi bo\x27lgan foydalanuvchini tanlang.\nRo\x27yxatda ko\x27rinmasa, ular botga /start yuborganini tekshiring."])

/-- `AssignmentBot.handle_assign_callback`: the admin confirms a
candidate.  The `assign_sm:<chat>:<user>` token is taken as already
parsed and matching the originating chat; `memberOk` is the
`get_chat_member` oracle and `dmOk` whether the private congratulation
could be delivered. -/
def handle_assign_callback (s : Store) (now : String) (chatId candidateId : Int)
    (title : Option String) (adminOk memberOk dmOk : Bool) : Store × List Out :=
  if !adminOk then
    (s, [.editText "Faqat administrator tanlovni tasdiqlashi mumkin."])
  else
    let s1 := record_group_chat s now chatId title
    match get_user s1 candidateId with
    | none => (s1, [.editText "Bu foydalanuvchi botga /start yubormagan."])
    | some candidate =>
      if !memberOk then
        (s1, [.editText "Foydalanuvchi guruh a\x27zosi emas yoki aniqlanmadi."])
      else
        match assign_sales_manager s1 now chatId candidateId with
        | .error e => (s1, [.editText e])
        | .ok s2 =>
          let dm_status := if dmOk then "Shaxsiy xabar yuborildi."
            else "Foydalanuvchiga shaxsiy xabar yuborilmadi. Iltimos, ularga botga /start yuborishlarini eslatib qo\x27ying."
          (s2, (if dmOk then
                  [Out.dm candidateId "Tabriklaymiz! Siz guruhda sales manager sifatida tayinlandingiz."]
                else [])
            ++ [.editText (candidate.display_label ++
                  " sales manager sifatida tayinlandi.\n" ++ dm_status)])

/-- `AssignmentBot.handle_new_item` in a group: only the assigned manager
with `active` credentials may start a draft; the customer-ensure step runs
first, then a fresh draft pinned to this chat replaces any previous one. -/
def handle_new_item (s : Store) (now : String) (chatId uid : Int)
    (extDoc : Option String) (hasBaseUrl : Bool) : Store × List Out :=
  let ok : Option AssignmentView :=
    match get_group_assignment s chatId with
    | none => none
    | some v => if v.user_id = uid then some v else none
  match ok with
  | none =>
    (s, [.reply uid "Faqat ushbu guruhga tayinlangan sales manager /new yozishi mumkin."])
  | some v =>
    if v.credentials_status ≠ some "active" then
      (s, [.reply uid "Avval ERPNext API kalitlarini to\x27liq tasdiqlang."])
    else if !hasBaseUrl then
      (s, [.reply uid "ERPNext URL sozlanmagan. Administrator bilan bog\x27laning."])
    else
      let r1 := ensure_customer_exists s v v.api_key v.api_secret extDoc
        hasBaseUrl
      let d : Draft :=
        ⟨"await_item_code", none, none, none, none, some chatId, none, none,
         none, none⟩
      (save_item_draft r1.1 now uid d,
       r1.2 ++ [.reply uid "Yangi Item yaratishni boshladik.\n1-qadam: Item Code (ID) ni kiriting."])

/-- `AssignmentBot.handle_group_activity`: refresh the chat and user rows
and, when the assigned manager with active credentials has a draft, feed
the text into the workflow — after the chat-pinning check (a truthy draft
chat different from this chat deletes the draft). -/
def handle_group_activity (s : Store) (now : String) (uid : Int)
    (username first_name last_name : Option String) (chatId : Int)
    (title : Option String) (rawText : String) (ext : ProgressExt) :
    Store × List Out :=
  let s1 := record_group_chat s now chatId title
  let s2 := record_user s1 now uid username first_name last_name
  let text := pyStrip rawText
  if text = "" then (s2, [])
  else
    match get_group_assignment s2 chatId with
    | none => (s2, [])
    | some v =>
      if v.user_id ≠ uid ∨ v.credentials_status ≠ some "active" then (s2, [])
      else
        match get_item_draft s2 uid with
        | none => (s2, [])
        | some d =>
          if d.stage = "" then (s2, [])
          else
            match d.chatId with
            | some dc =>
              if dc ≠ 0 ∧ dc ≠ chatId then
                (delete_item_draft s2 uid,
                 [.reply uid "Item yaratish boshqa guruhda boshlangan. /new bilan shu guruhda qayta boshlang."])
              else progress_item_creation s2 now uid v d text chatId ext
            | none =>
              progress_item_creation s2 now uid v
                { d with chatId := some chatId } text chatId ext

/-- `AssignmentBot.handle_choice_callback`: a `pick_<kind>` or
`page_<kind>` button press carrying `chatId`, `targetUid` and an integer
`value` (the colon-token is taken as parsed; a non-integer value is
rejected before any of this).  Identity, assignment, credential and
draft-pinning guards run first. -/
def handle_choice_callback (s : Store) (now : String)
    (fromUser chatId targetUid : Int) (action : String) (value : Int)
    (ext : ProgressExt) : Store × List Out :=
  if fromUser ≠ targetUid then (s, [.alert "Bu tugmalar siz uchun emas."])
  else
    let okView : Option AssignmentView :=
      match get_group_assignment s chatId with
      | none => none
      | some v => if v.user_id = targetUid then some v else none
    match okView with
    | none => (s, [.alert "Guruh tayinlanishi topilmadi."])
    | some v =>
      if v.credentials_status ≠ some "active" then
        (s, [.alert "Avval API credentiallari tasdiqlansin."])
      else
        match get_item_draft s targetUid with
        | none => (s, [.alert "Jarayon topilmadi. /new bilan qayta boshlang."])
        | some d =>
          if d.chatId ≠ some chatId then
            (delete_item_draft s targetUid,
             [.alert "Jarayon topilmadi. /new bilan qayta boshlang."])
          else if pyStartsWith action "page_" then
            let kind := pyDrop action 5
            match choiceConfigKey kind with
            | none => (s, [.alert "Noto\x27g\x27ri tur."])
            | some _ =>
              let page := max 0 value
              let d1 := draftSetPage d kind page
              (save_item_draft s now targetUid d1,
               send_choice_keyboard kind d1)
          else if pyStartsWith action "pick_" then
            let kind := pyDrop action 5
            match choiceConfigKey kind with
            | none => (s, [.alert "Noto\x27g\x27ri tur."])
            | some key =>
              let options := draftChoices d key
              if value < 0 ∨ (options.length : Int) ≤ value then
                (s, [.alert "Variant topilmadi."])
              else
                let selected := options.getD value.toNat ""
                let r := progress_item_creation s now targetUid v d selected
                  chatId ext
                (r.1, [.editText (selected ++ " tanlandi.")] ++ r.2)
          else (s, [.alert "Noma\x27lum amal."])

/-- The mutating storage operations of `AssignmentStorage` (the read-only
getters are irrelevant to the state).  `assign`, `storeApiKey`,
`storeApiSecret` and `resetCredentials` may raise `AssignmentError`, in
which case the transaction rolls back and the store is unchanged. -/
inductive StoreOp where
  | recordUser (now : String) (telegram_id : Int)
      (username first_name last_name : Option String)
  | recordGroupChat (now : String) (chat_id : Int) (title : Option String)
  | assign (now : String) (chat_id user_id : Int)
  | storeApiKey (user_id : Int) (api_key : String)
  | storeApiSecret (user_id : Int) (api_secret : String) (verified : Bool)
  | resetCredentials (user_id : Int)
  | resetAll
  | clearAllAssignments
  | saveItemDraft (now : String) (user_id : Int) (state : Draft)
  | deleteItemDraft (user_id : Int)
  | storeCustomerDoc (chat_id : Int) (docname : String)

/-- Apply one storage operation; a raised `AssignmentError` leaves the
store unchanged (sqlite rollback on close-without-commit). -/
def applyOp (s : Store) : StoreOp → Store
  | .recordUser now id un fn ln => record_user s now id un fn ln
  | .recordGroupChat now c t => record_group_chat s now c t
  | .assign now c u =>
    match assign_sales_manager s now c u with
    | .ok s1 => s1
    | .error _ => s
  | .storeApiKey u k =>
    match store_api_key s u k with
    | .ok s1 => s1
    | .error _ => s
  | .storeApiSecret u sec verified =>
    match store_api_secret s u sec verified with
    | .ok s1 => s1
    | .error _ => s
  | .resetCredentials u =>
    match reset_credentials s u with
    | .ok s1 => s1
    | .error _ => s
  | .resetAll => reset_all s
  | .clearAllAssignments => clear_all_assignments s
  | .saveItemDraft now u st => save_item_draft s now u st
  | .deleteItemDraft u => delete_item_draft s u
  | .storeCustomerDoc c d => store_customer_doc s c d

/-- Run a sequence of storage operations from the empty store. -/
def runOps (ops : List StoreOp) : Store := ops.foldl applyOp Store.empty

/-- The inbound events the bot consumes that can touch the store (the
purely read-only handlers `/help`, `/status`, `/report` and the inline
query never write).  Every external outcome a handler depends on travels
with its event as an oracle: admin/membership checks, the credential
verification result, the ERPNext fetch/create results and the
find-or-create customer docname. -/
inductive Event where
  | privateStart (now : String) (uid : Int)
      (username first_name last_name : Option String)
  | groupStart (now : String) (uid : Int)
      (username first_name last_name : Option String) (chatId : Int)
      (title : Option String)
  | assignCommand (now : String) (chatId uid : Int) (title : Option String)
      (adminOk : Bool)
  | assignCallback (now : String) (chatId candidateId : Int)
      (title : Option String) (adminOk memberOk dmOk : Bool)
  | privateMessage (uid : Int) (text : String) (verifyOk : Bool)
      (verifyDetail : Option String) (extDoc : Option String)
      (hasBaseUrl : Bool)
  | resetApi (uid : Int)
  | clearAllCmd (uid : Int) (adminOk : Bool)
  | newItem (now : String) (chatId uid : Int) (extDoc : Option String)
      (hasBaseUrl : Bool)
  | groupActivity (now : String) (uid : Int)
      (username first_name last_name : Option String) (chatId : Int)
      (title : Option String) (text : String) (ext : ProgressExt)
  | choiceCallback (now : String) (fromUser chatId targetUid : Int)
      (action : String) (value : Int) (ext : ProgressExt)

/-- Dispatch one inbound event to its handler. -/
def stepE (s : Store) : Event → Store × List Out
  | .privateStart now uid un fn ln => handle_start_private s now uid un fn ln
  | .groupStart now uid un fn ln c t =>
    handle_start_group s now uid un fn ln c t
  | .assignCommand now c uid t adminOk =>
    handle_assign_command s now c uid t adminOk
  | .assignCallback now c cand t adminOk memberOk dmOk =>
    handle_assign_callback s now c cand t adminOk memberOk dmOk
  | .privateMessage uid text vOk vDet ed hb =>
    handle_private_message s uid text vOk vDet ed hb
  | .resetApi uid => handle_reset_api s uid
  | .clearAllCmd uid adminOk => handle_clear_assignments s uid adminOk
  | .newItem now c uid ed hb => handle_new_item s now c uid ed hb
  | .groupActivity now uid un fn ln c t text ext =>
    handle_group_activity s now uid un fn ln c t text ext
  | .choiceCallback now fromU c target action value ext =>
    handle_choice_callback s now fromU c target action value ext

/-- Run a sequence of inbound events from the empty store. -/
def runE (es : List Event) : Store :=
  es.foldl (fun s e => (stepE s e).1) Store.empty

/-- The credential status of the assignment keyed by chat `c`: `none`
when the chat has no assignment, otherwise the stored
`credentials_status` column. -/
def statusAt (s : Store) (c : Int) : Option (Option String) :=
  (s.assignments.find? (fun a => a.chat_id = c)).map
    (fun a => a.credentials_status)

/-- Whether the event is the explicit `/reset_api` reset. -/
def isResetEvent : Event → Bool
  | .resetApi _ => true
  | _ => false

/-- Whether the event is the admin `/clear` bulk removal. -/
def isClearEvent : Event → Bool
  | .clearAllCmd _ _ => true
  | _ => false

/-- Whether the event is a private message whose external credential
verification returned an affirmative result. -/
def isAffirmVerify : Event → Bool
  | .privateMessage _ _ verifyOk _ _ _ => verifyOk
  | _ => false

/-- The transitions of the credential status at one chat that the spec
allows for a single inbound event: no change; creation straight into
`pending_key`; `pending_key → pending_secret`; `pending_secret → active`
only on an affirmative verification (the failed-verification self-loop is
literally no change); any state back to `pending_key` on the explicit
reset; and disappearance of the assignment on the admin bulk clear. -/
def okEdge (old new : Option (Option String)) (e : Event) : Prop :=
  new = old
  ∨ (old = none ∧ new = some (some "pending_key"))
  ∨ (old = some (some "pending_key") ∧ new = some (some "pending_secret"))
  ∨ (old = some (some "pending_secret") ∧ new = some (some "active")
      ∧ isAffirmVerify e = true)
  ∨ (new = some (some "pending_key") ∧ isResetEvent e = true)
  ∨ (new = none ∧ isClearEvent e = true)

/-- The state invariant of the assignments table: chat ids are unique
(primary key), user ids are unique (`UNIQUE NOT NULL`), and every stored
credential status is one of the three legal strings. -/
def Inv (s : Store) : Prop :=
  (s.assignments.map (fun a => a.chat_id)).Nodup
  ∧ (s.assignments.map (fun a => a.user_id)).Nodup
  ∧ ∀ a ∈ s.assignments,
      a.credentials_status = some "pending_key"
      ∨ a.credentials_status = some "pending_secret"
      ∨ a.credentials_status = some "active"

/-! ### Helper lemmas about the storage layer -/

theorem assignments_record_user (s : Store) (now : String) (id : Int)
    (un fn ln : Option String) :
    (record_user s now id un fn ln).assignments = s.assignments := by
  unfold record_user
  split <;> rfl

theorem assignments_record_group_chat (s : Store) (now : String) (c : Int)
    (t : Option String) :
    (record_group_chat s now c t).assignments = s.assignments := by
  unfold record_group_chat
  split <;> rfl

theorem assignments_save_item_draft (s : Store) (now : String) (u : Int)
    (st : Draft) :
    (save_item_draft s now u st).assignments = s.assignments := by
  unfold save_item_draft
  split <;> rfl

theorem assignments_delete_item_draft (s : Store) (u : Int) :
    (delete_item_draft s u).assignments = s.assignments := rfl

theorem map_map_key {α β : Type} (l : List α) (f : α → α) (k : α → β)
    (h : ∀ a, k (f a) = k a) : (l.map f).map k = l.map k := by
  induction l with
  | nil => rfl
  | cons a l ih => simp [ih, h]

theorem find?_assignments_map (f : AssignmentRow → AssignmentRow)
    (hkey : ∀ a, (f a).chat_id = a.chat_id) (l : List AssignmentRow)
    (c : Int) :
    (l.map f).find? (fun a => a.chat_id = c) =
      (l.find? (fun a => a.chat_id = c)).map f := by
  have hp : ((fun a => decide (a.chat_id = c)) ∘ f) =
      (fun a : AssignmentRow => decide (a.chat_id = c)) := by
    funext a
    simp [Function.comp, hkey]
  rw [List.find?_map, hp]

theorem statusAt_congr {s s' : Store} (h : s'.assignments = s.assignments)
    (c : Int) : statusAt s' c = statusAt s c := by
  simp [statusAt, h]

theorem statusAt_mapped (s : Store) (f : AssignmentRow → AssignmentRow)
    (hkey : ∀ a, (f a).chat_id = a.chat_id) (c : Int) :
    statusAt { s with assignments := s.assignments.map f } c =
      (s.assignments.find? (fun a => a.chat_id = c)).map
        (fun a => (f a).credentials_status) := by
  simp only [statusAt, find?_assignments_map f hkey, Option.map_map]
  rfl

/-- A legal stored credential status. -/
def legalStatus (o : Option String) : Prop :=
  o = some "pending_key" ∨ o = some "pending_secret" ∨ o = some "active"

theorem inv_congr {s s' : Store} (h : s'.assignments = s.assignments) :
    Inv s → Inv s' := by
  intro hs
  unfold Inv at hs ⊢
  rw [h]
  exact hs

theorem inv_map (s : Store) (f : AssignmentRow → AssignmentRow)
    (hc : ∀ a, (f a).chat_id = a.chat_id)
    (hu : ∀ a, (f a).user_id = a.user_id)
    (hw : ∀ a, legalStatus a.credentials_status →
      legalStatus (f a).credentials_status)
    (h : Inv s) : Inv { s with assignments := s.assignments.map f } := by
  obtain ⟨h1, h2, h3⟩ := h
  refine ⟨?_, ?_, ?_⟩
  · rw [map_map_key s.assignments f (fun a => a.chat_id) hc]
    exact h1
  · rw [map_map_key s.assignments f (fun a => a.user_id) hu]
    exact h2
  · intro b hb
    obtain ⟨a, ha, rfl⟩ := List.mem_map.mp hb
    exact hw a (h3 a ha)

theorem key_not_mem_of_find?_none {l : List AssignmentRow} {c : Int}
    (h : l.find? (fun a => a.chat_id = c) = none) :
    c ∉ l.map (fun a => a.chat_id) := by
  rw [List.find?_eq_none] at h
  intro hmem
  obtain ⟨a, ha, rfl⟩ := List.mem_map.mp hmem
  have := h a ha
  simp at this

theorem user_not_mem_of_find?_none {l : List AssignmentRow} {u : Int}
    (h : l.find? (fun a => a.user_id = u) = none) :
    u ∉ l.map (fun a => a.user_id) := by
  rw [List.find?_eq_none] at h
  intro hmem
  obtain ⟨a, ha, rfl⟩ := List.mem_map.mp hmem
  have := h a ha
  simp at this

theorem assign_ok_spec {s s' : Store} {now : String} {c u : Int}
    (h : assign_sales_manager s now c u = .ok s') :
    s'.assignments = s.assignments ++
        [⟨c, u, now, none, none, some "pending_key", none⟩]
    ∧ s.assignments.find? (fun a => a.chat_id = c) = none
    ∧ s.assignments.find? (fun a => a.user_id = u) = none := by
  unfold assign_sales_manager at h
  cases hc : s.chats.find? (fun x => x.chat_id = c) <;>
    simp only [hc] at h <;>
    [skip; skip] <;>
  · split at h
    · exact absurd h (by simp)
    · split at h
      · exact absurd h (by simp)
      · split at h
        · exact absurd h (by simp)
        · rename_i h1 h2 h3
          refine ⟨by cases h; rfl, ?_, ?_⟩
          · cases hfind : s.assignments.find? (fun a => a.chat_id = c) with
            | none => rfl
            | some a => simp [hfind] at h2
          · cases hfind : s.assignments.find? (fun a => a.user_id = u) with
            | none => rfl
            | some a => simp [hfind] at h3

theorem nodup_snoc {α : Type} {l : List α} {a : α} (h1 : l.Nodup)
    (h2 : a ∉ l) : (l ++ [a]).Nodup := by
  rw [List.nodup_append]
  refine ⟨h1, List.nodup_singleton a, ?_⟩
  intro x hx hxa
  simp only [List.mem_singleton] at hxa
  subst hxa
  exact h2 hx

theorem updKey_chat_id (k : String) (u : Int) (a : AssignmentRow) :
    (updKey k u a).chat_id = a.chat_id := by
  unfold updKey
  split <;> rfl

theorem updKey_user_id (k : String) (u : Int) (a : AssignmentRow) :
    (updKey k u a).user_id = a.user_id := by
  unfold updKey
  split <;> rfl

theorem updKey_legal (k : String) (u : Int) (a : AssignmentRow)
    (h : legalStatus a.credentials_status) :
    legalStatus (updKey k u a).credentials_status := by
  unfold updKey
  split
  · exact Or.inr (Or.inl rfl)
  · exact h

theorem updSecret_chat_id (sec : String) (verified : Bool) (u : Int)
    (a : AssignmentRow) : (updSecret sec verified u a).chat_id = a.chat_id := by
  unfold updSecret
  split <;> rfl

theorem updSecret_user_id (sec : String) (verified : Bool) (u : Int)
    (a : AssignmentRow) : (updSecret sec verified u a).user_id = a.user_id := by
  unfold updSecret
  split <;> rfl

theorem updSecret_legal (sec : String) (verified : Bool) (u : Int)
    (a : AssignmentRow) (h : legalStatus a.credentials_status) :
    legalStatus (updSecret sec verified u a).credentials_status := by
  unfold updSecret
  split
  · cases verified with
    | true => exact Or.inr (Or.inr rfl)
    | false => exact Or.inr (Or.inl rfl)
  · exact h

theorem updReset_chat_id (u : Int) (a : AssignmentRow) :
    (updReset u a).chat_id = a.chat_id := by
  unfold updReset
  split <;> rfl

theorem updReset_user_id (u : Int) (a : AssignmentRow) :
    (updReset u a).user_id = a.user_id := by
  unfold updReset
  split <;> rfl

theorem updReset_legal (u : Int) (a : AssignmentRow)
    (h : legalStatus a.credentials_status) :
    legalStatus (updReset u a).credentials_status := by
  unfold updReset
  split
  · exact Or.inl rfl
  · exact h

theorem updCustomer_chat_id (d : String) (c : Int) (a : AssignmentRow) :
    (updCustomer d c a).chat_id = a.chat_id := by
  unfold updCustomer
  split <;> rfl

theorem updCustomer_user_id (d : String) (c : Int) (a : AssignmentRow) :
    (updCustomer d c a).user_id = a.user_id := by
  unfold updCustomer
  split <;> rfl

theorem updCustomer_status (d : String) (c : Int) (a : AssignmentRow) :
    (updCustomer d c a).credentials_status = a.credentials_status := by
  unfold updCustomer
  split <;> rfl

theorem store_api_key_ok_spec {s s' : Store} {u : Int} {k : String}
    (h : store_api_key s u k = .ok s') :
    s'.assignments = s.assignments.map (updKey k u)
    ∧ s'.users = s.users ∧ s'.chats = s.chats ∧ s'.drafts = s.drafts := by
  unfold store_api_key at h
  split at h
  · cases h
    exact ⟨rfl, rfl, rfl, rfl⟩
  · exact absurd h (by simp)

theorem store_api_secret_ok_spec {s s' : Store} {u : Int} {sec : String}
    {verified : Bool} (h : store_api_secret s u sec verified = .ok s') :
    s'.assignments = s.assignments.map (updSecret sec verified u)
    ∧ s'.users = s.users ∧ s'.chats = s.chats ∧ s'.drafts = s.drafts := by
  unfold store_api_secret at h
  split at h
  · cases h
    exact ⟨rfl, rfl, rfl, rfl⟩
  · exact absurd h (by simp)

theorem reset_credentials_ok_spec {s s' : Store} {u : Int}
    (h : reset_credentials s u = .ok s') :
    s'.assignments = s.assignments.map (updReset u)
    ∧ s'.users = s.users ∧ s'.chats = s.chats ∧ s'.drafts = s.drafts := by
  unfold reset_credentials at h
  split at h
  · cases h
    exact ⟨rfl, rfl, rfl, rfl⟩
  · exact absurd h (by simp)

theorem inv_of_assignments_map {s s' : Store}
    (f : AssignmentRow → AssignmentRow)
    (hmap : s'.assignments = s.assignments.map f)
    (hc : ∀ a, (f a).chat_id = a.chat_id)
    (hu : ∀ a, (f a).user_id = a.user_id)
    (hw : ∀ a, legalStatus a.credentials_status →
      legalStatus (f a).credentials_status)
    (h : Inv s) : Inv s' := by
  have := inv_map s f hc hu hw h
  exact inv_congr (s := { s with assignments := s.assignments.map f }) hmap this

theorem inv_applyOp (s : Store) (op : StoreOp) (h : Inv s) :
    Inv (applyOp s op) := by
  cases op with
  | recordUser now id un fn ln =>
    exact inv_congr (assignments_record_user s now id un fn ln) h
  | recordGroupChat now c t =>
    exact inv_congr (assignments_record_group_chat s now c t) h
  | saveItemDraft now u st =>
    exact inv_congr (assignments_save_item_draft s now u st) h
  | deleteItemDraft u =>
    exact inv_congr (assignments_delete_item_draft s u) h
  | resetAll =>
    exact ⟨by simp [applyOp, reset_all], by simp [applyOp, reset_all],
           by simp [applyOp, reset_all]⟩
  | clearAllAssignments =>
    exact ⟨by simp [applyOp, clear_all_assignments],
           by simp [applyOp, clear_all_assignments],
           by simp [applyOp, clear_all_assignments]⟩
  | storeCustomerDoc c d =>
    simp only [applyOp, store_customer_doc]
    exact inv_map s _ (updCustomer_chat_id d c) (updCustomer_user_id d c)
      (fun a ha => by rw [updCustomer_status]; exact ha) h
  | assign now c u =>
    simp only [applyOp]
    cases hr : assign_sales_manager s now c u with
    | error e => exact h
    | ok s1 =>
      obtain ⟨hassign, hc, hu⟩ := assign_ok_spec hr
      obtain ⟨h1, h2, h3⟩ := h
      refine ⟨?_, ?_, ?_⟩
      · rw [hassign, List.map_append]
        exact nodup_snoc h1 (key_not_mem_of_find?_none hc)
      · rw [hassign, List.map_append]
        exact nodup_snoc h2 (user_not_mem_of_find?_none hu)
      · intro a ha
        rw [hassign] at ha
        rcases List.mem_append.mp ha with hmem | hmem
        · exact h3 a hmem
        · simp only [List.mem_singleton] at hmem
          subst hmem
          exact Or.inl rfl
  | storeApiKey u k =>
    simp only [applyOp]
    cases hr : store_api_key s u k with
    | error e => exact h
    | ok s1 =>
      exact inv_of_assignments_map _ (store_api_key_ok_spec hr).1
        (updKey_chat_id k u) (updKey_user_id k u) (updKey_legal k u) h
  | storeApiSecret u sec verified =>
    simp only [applyOp]
    cases hr : store_api_secret s u sec verified with
    | error e => exact h
    | ok s1 =>
      exact inv_of_assignments_map _ (store_api_secret_ok_spec hr).1
        (updSecret_chat_id sec verified u) (updSecret_user_id sec verified u)
        (updSecret_legal sec verified u) h
  | resetCredentials u =>
    simp only [applyOp]
    cases hr : reset_credentials s u with
    | error e => exact h
    | ok s1 =>
      exact inv_of_assignments_map _ (reset_credentials_ok_spec hr).1
        (updReset_chat_id u) (updReset_user_id u) (updReset_legal u) h

theorem inv_foldl (ops : List StoreOp) :
    ∀ s : Store, Inv s → Inv (ops.foldl applyOp s) := by
  induction ops with
  | nil => intro s h; exact h
  | cons op ops ih =>
    intro s h
    exact ih (applyOp s op) (inv_applyOp s op h)

theorem inv_empty : Inv Store.empty :=
  ⟨List.nodup_nil, List.nodup_nil, fun a ha => absurd ha (List.not_mem_nil a)⟩

/-! ### C1 -/

/-- C1: starting from the empty store, after any sequence of storage
operations the assignments table has pairwise-distinct chat ids (each chat
is the key of at most one assignment) and pairwise-distinct user ids (each
user is referenced by at most one assignment system-wide). -/
theorem assignments_keys_unique (ops : List StoreOp) :
    ((runOps ops).assignments.map (fun a => a.chat_id)).Nodup
    ∧ ((runOps ops).assignments.map (fun a => a.user_id)).Nodup := by
  have h := inv_foldl ops Store.empty inv_empty
  exact ⟨h.1, h.2.1⟩

/-! ### C2 -/

/-- C2: `assign_sales_manager` raises `AssignmentError` exactly when, on
the store at the time of the call, the target user has never been
recorded, or the chat already has an assignment, or the user already has
an assignment for some other chat; and whenever it raises, the transaction
rolls back and no row of any table changes (`applyOp` returns the
pre-state). -/
theorem createAssignment_error_iff (s : Store) (now : String) (c u : Int) :
    ((∃ e, assign_sales_manager s now c u = .error e) ↔
      ((∀ x ∈ s.users, x.telegram_id ≠ u)
        ∨ (∃ a ∈ s.assignments, a.chat_id = c)
        ∨ (∃ a ∈ s.assignments, a.user_id = u ∧ a.chat_id ≠ c)))
    ∧ ((∃ e, assign_sales_manager s now c u = .error e) →
        applyOp s (.assign now c u) = s) := by
  have hcode : (∃ e, assign_sales_manager s now c u = .error e) ↔
      (s.users.find? (fun x => x.telegram_id = u) = none
        ∨ (s.assignments.find? (fun a => a.chat_id = c)).isSome
        ∨ (s.assignments.find? (fun a => a.user_id = u)).isSome) := by
    unfold assign_sales_manager
    cases hc : s.chats.find? (fun x => x.chat_id = c) <;>
      simp only [hc] <;>
    · by_cases h1 : s.users.find? (fun x => x.telegram_id = u) = none
      · simp [h1, Option.isNone_iff_eq_none]
      · rw [← Option.not_isSome_iff_eq_none] at h1
        push_neg at h1
        by_cases h2 : (s.assignments.find? (fun a => a.chat_id = c)).isSome
        · simp [Option.isNone_iff_eq_none, ← Option.not_isSome_iff_eq_none,
            h1, h2]
        · by_cases h3 : (s.assignments.find? (fun a => a.user_id = u)).isSome
          · simp [Option.isNone_iff_eq_none, ← Option.not_isSome_iff_eq_none,
              h1, h2, h3]
          · simp [Option.isNone_iff_eq_none, ← Option.not_isSome_iff_eq_none,
              h1, h2, h3]
  constructor
  · rw [hcode]
    have e1 : s.users.find? (fun x => x.telegram_id = u) = none ↔
        ∀ x ∈ s.users, x.telegram_id ≠ u := by
      rw [List.find?_eq_none]
      simp
    have e2 : (s.assignments.find? (fun a => a.chat_id = c)).isSome ↔
        ∃ a ∈ s.assignments, a.chat_id = c := by
      rw [List.find?_isSome]
      simp
    have e3 : (s.assignments.find? (fun a => a.user_id = u)).isSome ↔
        ∃ a ∈ s.assignments, a.user_id = u := by
      rw [List.find?_isSome]
      simp
    rw [e1, e2, e3]
    constructor
    · rintro (h | h | ⟨a, ha, hau⟩)
      · exact Or.inl h
      · exact Or.inr (Or.inl h)
      · by_cases hac : a.chat_id = c
        · exact Or.inr (Or.inl ⟨a, ha, hac⟩)
        · exact Or.inr (Or.inr ⟨a, ha, hau, hac⟩)
    · rintro (h | h | ⟨a, ha, hau, _⟩)
      · exact Or.inl h
      · exact Or.inr (Or.inl h)
      · exact Or.inr (Or.inr ⟨a, ha, hau⟩)
  · rintro ⟨e, he⟩
    simp [applyOp, he]

/-- Witness for C2 at a concrete input: on the empty store the assignment
attempt fails (the user never sent `/start`) and the store is unchanged. -/
theorem createAssignment_error_iff_witness :
    applyOp Store.empty (.assign "t0" 1 2) = Store.empty :=
  (createAssignment_error_iff Store.empty "t0" 1 2).2
    ⟨"Foydalanuvchi botga shaxsiy chatda /start yubormagan.", rfl⟩

/-! ### C8 -/

/-- C8: `clear_all_assignments` empties the assignments table and leaves
`users` and `chats` exactly as they were; afterwards the by-chat and
by-user assignment lookups return `none` for every chat and user, while
`get_user` still returns every previously recorded user unchanged. -/
theorem clearAll_frame (s : Store) (c u : Int) :
    (clear_all_assignments s).assignments = []
    ∧ (clear_all_assignments s).users = s.users
    ∧ (clear_all_assignments s).chats = s.chats
    ∧ (clear_all_assignments s).drafts = s.drafts
    ∧ get_group_assignment (clear_all_assignments s) c = none
    ∧ get_user_assignment (clear_all_assignments s) u = none
    ∧ get_user (clear_all_assignments s) u = get_user s u := by
  refine ⟨rfl, rfl, rfl, rfl, ?_, ?_, rfl⟩
  · simp [get_group_assignment, clear_all_assignments]
  · simp [get_user_assignment, clear_all_assignments]

/-! ### C10 -/

/-- Counterexample to C10 as stated: for the two-token title
`"Hello World"` (at most two whitespace-separated tokens) the derived
customer name is the title itself, not the synthetic
`Auto Customer <chat_id>` name the claim requires in that case. -/
theorem derive_customer_name_two_tokens_cx :
    (pySplit "Hello World").length ≤ 2
    ∧ derive_customer_name (some "Hello World") 5 = "Hello World"
    ∧ derive_customer_name (some "Hello World") 5 ≠
        "Auto Customer " ++ toString (5 : Int) := by
  refine ⟨by decide, by decide, by decide⟩

/-- C10 (amended): the ensure-linked-record name drops the first two
whitespace tokens only when the title has more than two tokens; a present
non-empty title with at most two tokens is used itself (stripped); the
synthetic `Auto Customer <chat_id>` name is used only when the title is
absent, empty, or strips to nothing. -/
theorem derive_customer_name_cases (t : String) (cid : Int) :
    derive_customer_name none cid = "Auto Customer " ++ toString cid
    ∧ derive_customer_name (some "") cid = "Auto Customer " ++ toString cid
    ∧ ((pySplit t).length > 2 → t ≠ "" →
        derive_customer_name (some t) cid =
          (if pyStrip (" ".intercalate ((pySplit t).drop 2)) = "" then
            "Auto Customer " ++ toString cid
          else pyStrip (" ".intercalate ((pySplit t).drop 2))))
    ∧ ((pySplit t).length ≤ 2 → t ≠ "" →
        derive_customer_name (some t) cid =
          (if pyStrip t = "" then "Auto Customer " ++ toString cid
           else pyStrip t)) := by
  refine ⟨rfl, by simp [derive_customer_name], ?_, ?_⟩
  · intro hlen hne
    simp only [derive_customer_name, hne, bne_iff_ne, ne_eq,
      not_false_iff, if_true, hlen, if_pos]
    by_cases hc : pyStrip (" ".intercalate ((pySplit t).drop 2)) = "" <;>
      simp [hlen, hc]
  · intro hlen hne
    have hlen' : ¬ (pySplit t).length > 2 := by omega
    simp only [derive_customer_name, hne, bne_iff_ne, ne_eq,
      not_false_iff, if_true]
    by_cases hc : pyStrip t = "" <;> simp [hlen', hc]

/-- Witness for the amended C10 at a concrete input: a four-token title
keeps only the tokens after the first two. -/
theorem derive_customer_name_cases_witness :
    (pySplit "A B C D").length > 2
    ∧ derive_customer_name (some "A B C D") 7 =
        (if pyStrip (" ".intercalate ((pySplit "A B C D").drop 2)) = "" then
          "Auto Customer " ++ toString (7 : Int)
        else pyStrip (" ".intercalate ((pySplit "A B C D").drop 2))) :=
  ⟨by decide,
   (derive_customer_name_cases "A B C D" 7).2.2.1 (by decide) (by decide)⟩

/-! ### C7 -/

/-- A demo assignment view with active credentials, used to exercise the
item-draft workflow at concrete inputs. -/
def demoView : AssignmentView :=
  ⟨100, 1, "t0", some "3739e78cec4e139", some "2a428d03deaceb8",
   some "active", none, some "Great Team Alpha", some "manager", some "Mana",
   none⟩

/-- A draft at the item-group choice stage whose cached option list is
empty. -/
def draftEmptyChoices : Draft :=
  ⟨"await_item_group", some "ITEM-001", some "Name", none, none, some 100,
   some [], none, some 0, none⟩

/-- A draft at the item-group choice stage with cached options
`["ab"]`. -/
def draftAbChoices : Draft :=
  ⟨"await_item_group", some "ITEM-001", some "Name", none, none, some 100,
   some ["ab"], none, some 0, none⟩

/-- External oracles: both fetches succeed and item creation succeeds. -/
def demoExt : ProgressExt := ⟨(true, none, ["G1"]), (true, none, ["kg"]), (true, none)⟩

/-- A store whose only content is the draft with the empty cached list,
owned by user 1. -/
def storeEmptyChoices : Store := ⟨[], [], [], [⟨1, draftEmptyChoices, "t0"⟩]⟩

/-- A store whose only content is the draft with cached options `["ab"]`,
owned by user 1. -/
def storeAbChoices : Store := ⟨[], [], [], [⟨1, draftAbChoices, "t0"⟩]⟩

/-- Counterexample to C7 as stated: with an empty cached option list the
free text `"x"` matches no option case-insensitively, yet `_match_choice`
returns it and the workflow accepts it — the draft advances to `await_uom`
with `item_group = "x"` instead of being rejected with a retry prompt. -/
theorem choice_empty_list_accepts_cx :
    match_choice "x" [] = some "x"
    ∧ (¬ ∃ o ∈ ([] : List String), pyLower o = pyLower "x")
    ∧ (get_item_draft
        (progress_item_creation storeEmptyChoices "t1" 1 demoView
          draftEmptyChoices "x" 100 demoExt).1 1).map
        (fun d => (d.stage, d.itemGroup)) = some ("await_uom", some "x") := by
  refine ⟨by decide, by decide, by decide⟩

/-- C7 (amended): a free-text answer at a choice stage is accepted iff the
cached list is empty (the raw text is then used verbatim) or the text
case-insensitively equals at least one cached option (the first such
option, in its original casing, being the stored value); when the list is
non-empty and nothing matches, the store is unchanged and the user gets
the retry prompt. -/
theorem choice_text_matching (t : String) (choices : List String) :
    ((match_choice t choices).isSome ↔
      (choices = [] ∨ ∃ o ∈ choices, pyLower o = pyLower t))
    ∧ (∀ r, match_choice t choices = some r →
        (choices = [] ∧ r = t) ∨ (r ∈ choices ∧ pyLower r = pyLower t))
    ∧ (∀ s : Store, ∀ now : String, ∀ uid : Int, ∀ v : AssignmentView,
        ∀ d : Draft, ∀ text : String, ∀ msgC : Int, ∀ ext : ProgressExt,
        optTruthy v.api_key = true → optTruthy v.api_secret = true →
        d.stage = "await_item_group" → d.itemGroups = some choices →
        choices ≠ [] → pyStrip text ≠ "" →
        (∀ o ∈ choices, pyLower o ≠ pyLower (pyStrip text)) →
        (progress_item_creation s now uid v d text msgC ext).1 = s
        ∧ Out.reply uid
            "Noto\x27g\x27ri item group. Ro\x27yxatdan birini tanlang yoki aniq nomini kiriting."
            ∈ (progress_item_creation s now uid v d text msgC ext).2) := by
  refine ⟨?_, ?_, ?_⟩
  · unfold match_choice
    by_cases he : choices.isEmpty
    · simp [he, List.isEmpty_iff.mp he]
    · rw [if_neg he]
      rw [List.find?_isSome]
      simp [List.isEmpty_iff] at he
      simp [he]
  · intro r hr
    unfold match_choice at hr
    by_cases he : choices.isEmpty
    · rw [if_pos he] at hr
      cases hr
      exact Or.inl ⟨List.isEmpty_iff.mp he, rfl⟩
    · rw [if_neg he] at hr
      refine Or.inr ⟨List.mem_of_find?_eq_some hr, ?_⟩
      have := List.find?_some hr
      simpa using this
  · intro s now uid v d text msgC ext hk hs hstage hchoices hne hstrip hnone
    have hmc : match_choice (pyStrip text) choices = none := by
      unfold match_choice
      rw [if_neg (by simpa [List.isEmpty_iff] using hne)]
      rw [List.find?_eq_none]
      intro o ho
      simpa using hnone o ho
    refine ⟨?_, ?_⟩ <;>
    · unfold progress_item_creation
      simp [hk, hs, hstrip, hstage, hchoices, hmc, choiceRejected]

/-- Witness for the amended C7: `"KG"` matches the cached option `"kg"`
case-insensitively and resolves to the original casing, while `"zz"`
against cached `["ab"]` is rejected with the retry prompt and no store
change. -/
theorem choice_text_matching_witness :
    (((["ab"] : List String) = [] ∧ "ab" = "AB")
      ∨ ("ab" ∈ ["ab"] ∧ pyLower "ab" = pyLower "AB"))
    ∧ (progress_item_creation storeAbChoices "t1" 1 demoView draftAbChoices
        "zz" 100 demoExt).1 = storeAbChoices
    ∧ Out.reply 1
        "Noto\x27g\x27ri item group. Ro\x27yxatdan birini tanlang yoki aniq nomini kiriting."
        ∈ (progress_item_creation storeAbChoices "t1" 1 demoView
            draftAbChoices "zz" 100 demoExt).2 := by
  have h1 := (choice_text_matching "AB" ["ab"]).2.1 "ab" (by decide)
  have h2 := (choice_text_matching "zz" ["ab"]).2.2 storeAbChoices "t1" 1
    demoView draftAbChoices "zz" 100 demoExt (by decide) (by decide)
    (by decide) (by decide) (by decide) (by decide) (by decide)
  exact ⟨h1, h2.1, h2.2⟩

/-! ### C6 -/

/-- A 13-element cached option list. -/
def thirteenOptions : List String :=
  ["o1", "o2", "o3", "o4", "o5", "o6", "o7", "o8", "o9", "o10", "o11", "o12",
   "o13"]

/-- A draft at the item-group choice stage caching the 13 options, pinned
to chat 100. -/
def draftThirteen : Draft :=
  ⟨"await_item_group", some "ITEM-001", some "Name", none, none, some 100,
   some thirteenOptions, none, some 0, none⟩

/-- A store with user 1 assigned to chat 100 with active credentials and
the 13-option draft in flight. -/
def storeThirteen : Store :=
  ⟨[⟨1, some "manager", some "Mana", none, "t0", "t0"⟩],
   [⟨100, some "Great Team Alpha", "t0", "t0"⟩],
   [⟨100, 1, "t0", some "3739e78cec4e139", some "2a428d03deaceb8",
     some "active", none⟩],
   [⟨1, draftThirteen, "t0"⟩]⟩

/-- C6: the rendered page count of an `n`-option list is `⌈n/6⌉` and the
rendered page is always clamped below it; concretely, 13 options make 3
pages and a requested page 5 renders page 2 (showing the last option); and
a `pick` whose index falls outside `[0, n-1]` is rejected by
`handle_choice_callback` without any store (hence draft) mutation. -/
theorem choice_pagination_spec :
    (∀ n : Nat, 1 ≤ n →
      choice_max_page n + 1 = (n + (CHOICE_PAGE_SIZE - 1)) / CHOICE_PAGE_SIZE
      ∧ ∀ p : Int, clamp_page p n < choice_max_page n + 1)
    ∧ (choice_max_page 13 + 1 = 3 ∧ clamp_page 5 13 = 2)
    ∧ ((handle_choice_callback storeThirteen "t1" 1 100 1 "page_item_group" 5
        demoExt).2 = [Out.menu "item_group" 2 3 13 ["o13"]])
    ∧ (∀ s : Store, ∀ now : String, ∀ chatId uid : Int, ∀ v : AssignmentView,
        ∀ d : Draft, ∀ value : Int, ∀ ext : ProgressExt,
        get_group_assignment s chatId = some v → v.user_id = uid →
        v.credentials_status = some "active" →
        get_item_draft s uid = some d → d.chatId = some chatId →
        (value < 0 ∨ ((d.itemGroups.getD []).length : Int) ≤ value) →
        (handle_choice_callback s now uid chatId uid "pick_item_group" value
          ext).1 = s) := by
  refine ⟨?_, ⟨by decide, by decide⟩, by decide, ?_⟩
  · intro n hn
    constructor
    · simp only [choice_max_page, CHOICE_PAGE_SIZE]
      omega
    · intro p
      simp only [clamp_page, choice_max_page, CHOICE_PAGE_SIZE]
      omega
  · intro s now chatId uid v d value ext hv huid hstatus hd hdchat hbound
    have hpage : pyStartsWith "pick_item_group" "page_" = false := by decide
    have hpick : pyStartsWith "pick_item_group" "pick_" = true := by decide
    have hdrop : pyDrop "pick_item_group" 5 = "item_group" := by decide
    unfold handle_choice_callback
    rw [if_neg (by exact fun h => h rfl)]
    simp only [hv, huid, if_pos, hstatus, hd]
    rw [if_neg (show ¬(some "active" ≠ some "active") from fun h => h rfl),
        if_neg (show ¬(d.chatId ≠ some chatId) from fun h => h hdchat),
        hpage]
    simp only [Bool.false_eq_true, if_false, hpick, if_true, hdrop]
    have hkey : choiceConfigKey "item_group" = some "item_groups" := by decide
    rw [hkey]
    have hopts : draftChoices d "item_groups" = d.itemGroups.getD [] := by
      simp [draftChoices]
    dsimp only
    rw [hopts, if_pos hbound]

/-- Witness for C6 at concrete inputs: 13 options give 3 pages with any
request clamped below 3, and the out-of-range pick index 13 on the
13-option draft leaves the store untouched. -/
theorem choice_pagination_spec_witness :
    (choice_max_page 13 + 1 = (13 + (CHOICE_PAGE_SIZE - 1)) / CHOICE_PAGE_SIZE
      ∧ clamp_page 7 13 < choice_max_page 13 + 1)
    ∧ (handle_choice_callback storeThirteen "t1" 1 100 1 "pick_item_group" 13
        demoExt).1 = storeThirteen := by
  have h1 := choice_pagination_spec.1 13 (by decide)
  have h2 := choice_pagination_spec.2.2.2 storeThirteen "t1" 100 1
    (mkView ⟨100, 1, "t0", some "3739e78cec4e139", some "2a428d03deaceb8",
      some "active", none⟩
      ⟨100, some "Great Team Alpha", "t0", "t0"⟩
      ⟨1, some "manager", some "Mana", none, "t0", "t0"⟩)
    draftThirteen 13 demoExt (by decide) (by decide) (by decide) (by decide)
    (by decide) (by decide)
  exact ⟨⟨h1.1, h1.2 7⟩, h2⟩

/-! ### View-level helper lemmas -/

theorem get_user_assignment_inv {s : Store} {uid : Int} {v : AssignmentView}
    (h : get_user_assignment s uid = some v) :
    ∃ a cr ur, s.assignments.find? (fun x => x.user_id = uid) = some a
      ∧ s.chats.find? (fun x => x.chat_id = a.chat_id) = some cr
      ∧ s.users.find? (fun x => x.telegram_id = a.user_id) = some ur
      ∧ v = mkView a cr ur := by
  unfold get_user_assignment at h
  split at h
  · exact absurd h (by simp)
  · rename_i a hfa
    split at h
    · rename_i cr ur hfc hfu
      cases h
      exact ⟨a, cr, ur, hfa, hfc, hfu, rfl⟩
    · exact absurd h (by simp)

theorem any_user_of_find? {l : List AssignmentRow} {uid : Int}
    {a : AssignmentRow} (h : l.find? (fun x => x.user_id = uid) = some a) :
    l.any (fun x => x.user_id = uid) = true := by
  have hm := List.mem_of_find?_eq_some h
  have hp := List.find?_some h
  exact List.any_eq_true.mpr ⟨a, hm, hp⟩

theorem store_api_key_eq (s : Store) (uid : Int) (k : String)
    (hany : s.assignments.any (fun x => x.user_id = uid) = true) :
    store_api_key s uid k =
      .ok { s with assignments := s.assignments.map (updKey k uid) } := by
  unfold store_api_key
  rw [if_pos hany]

theorem store_api_secret_eq (s : Store) (uid : Int) (sec : String)
    (verified : Bool)
    (hany : s.assignments.any (fun x => x.user_id = uid) = true) :
    store_api_secret s uid sec verified =
      .ok { s with assignments :=
              s.assignments.map (updSecret sec verified uid) } := by
  unfold store_api_secret
  rw [if_pos hany]

theorem reset_credentials_eq (s : Store) (uid : Int)
    (hany : s.assignments.any (fun x => x.user_id = uid) = true) :
    reset_credentials s uid =
      .ok { s with assignments := s.assignments.map (updReset uid) } := by
  unfold reset_credentials
  rw [if_pos hany]

theorem find?_user_map (s : Store) (uid : Int)
    (f : AssignmentRow → AssignmentRow)
    (hu : ∀ a, (f a).user_id = a.user_id) :
    (s.assignments.map f).find? (fun a => a.user_id = uid) =
      (s.assignments.find? (fun a => a.user_id = uid)).map f := by
  have hp : ((fun a : AssignmentRow => decide (a.user_id = uid)) ∘ f) =
      (fun a : AssignmentRow => decide (a.user_id = uid)) := by
    funext a
    simp [Function.comp, hu]
  rw [List.find?_map, hp]

theorem get_user_assignment_map (s : Store) (uid : Int)
    (f : AssignmentRow → AssignmentRow)
    (hu : ∀ a, (f a).user_id = a.user_id)
    (hc : ∀ a, (f a).chat_id = a.chat_id) :
    get_user_assignment { s with assignments := s.assignments.map f } uid =
      match s.assignments.find? (fun a => a.user_id = uid) with
      | none => none
      | some a =>
        match s.chats.find? (fun x => x.chat_id = a.chat_id),
              s.users.find? (fun x => x.telegram_id = a.user_id) with
        | some cr, some ur => some (mkView (f a) cr ur)
        | _, _ => none := by
  unfold get_user_assignment
  simp only
  rw [find?_user_map s uid f hu]
  cases s.assignments.find? (fun a => a.user_id = uid) with
  | none => rfl
  | some a =>
    simp only [Option.map_some']
    rw [hc a, hu a]

/-! ### Evaluation lemmas for `handle_private_message` -/

theorem validate_api_key_ne_empty {t : String}
    (h : validate_api_key t = true) : t ≠ "" := by
  intro h0
  rw [h0] at h
  exact absurd h (by decide)

theorem validate_api_secret_ne_empty {t : String}
    (h : validate_api_secret t = true) : t ≠ "" := by
  intro h0
  rw [h0] at h
  exact absurd h (by decide)

theorem hpm_empty (s : Store) (uid : Int) (raw : String) (vOk : Bool)
    (detail extDoc : Option String) (hb : Bool)
    (hstrip : pyStrip raw = "") :
    handle_private_message s uid raw vOk detail extDoc hb = (s, []) := by
  unfold handle_private_message
  simp [hstrip]

theorem hpm_pending_key_valid (s : Store) (uid : Int) (raw : String)
    (vOk : Bool) (detail extDoc : Option String) (hb : Bool)
    (v : AssignmentView)
    (hv : get_user_assignment s uid = some v)
    (hst : pyStatusOr v.credentials_status = "pending_key")
    (hval : validate_api_key (pyStrip raw) = true) :
    handle_private_message s uid raw vOk detail extDoc hb =
      ({ s with assignments := s.assignments.map (updKey (pyStrip raw) uid) },
       [Out.reply uid "API kalit saqlandi. Endi API secret key yuboring."]) := by
  obtain ⟨a, cr, ur, hfa, hfc, hfu, hview⟩ := get_user_assignment_inv hv
  have hkeyeq := store_api_key_eq s uid (pyStrip raw) (any_user_of_find? hfa)
  have hstrip : ¬ (pyStrip raw = "") := validate_api_key_ne_empty hval
  unfold handle_private_message
  simp [hv, hstrip, hst, hval, hkeyeq]

theorem hpm_pending_key_invalid (s : Store) (uid : Int) (raw : String)
    (vOk : Bool) (detail extDoc : Option String) (hb : Bool)
    (v : AssignmentView)
    (hv : get_user_assignment s uid = some v)
    (hst : pyStatusOr v.credentials_status = "pending_key")
    (hval : validate_api_key (pyStrip raw) = false)
    (hstrip : pyStrip raw ≠ "") :
    handle_private_message s uid raw vOk detail extDoc hb =
      (s, [Out.reply uid
        "API kalit formati noto\x27g\x27ri. Masalan: 3739e78cec4e139"]) := by
  unfold handle_private_message
  simp [hv, hstrip, hst, hval]

theorem hpm_pending_secret_fail (s : Store) (uid : Int) (raw : String)
    (detail extDoc : Option String) (hb : Bool) (v : AssignmentView)
    (hv : get_user_assignment s uid = some v)
    (hst : pyStatusOr v.credentials_status = "pending_secret")
    (hval : validate_api_secret (pyStrip raw) = true) :
    handle_private_message s uid raw false detail extDoc hb =
      ({ s with assignments :=
           s.assignments.map (updSecret (pyStrip raw) false uid) },
       [Out.verifyCall (v.api_key.getD "") (pyStrip raw),
        Out.reply uid
          ("API secret saqlandi, biroq ERPNext bilan ulanish amalga oshmadi. Lutfan ma\x27lumotlarni tekshiring."
            ++ detailExtra detail),
        Out.send v.chat_id (format_assignment_label v ++
          " API ma\x27lumotlarini yubordi, ammo ERPNext bilan ulanish amalga oshmadi.")]) := by
  obtain ⟨a, cr, ur, hfa, hfc, hfu, hview⟩ := get_user_assignment_inv hv
  have hseceq := store_api_secret_eq s uid (pyStrip raw) false
    (any_user_of_find? hfa)
  have hstrip : ¬ (pyStrip raw = "") := validate_api_secret_ne_empty hval
  unfold handle_private_message
  simp [hv, hstrip, hst, hval, hseceq]

theorem hpm_pending_secret_invalid (s : Store) (uid : Int) (raw : String)
    (vOk : Bool) (detail extDoc : Option String) (hb : Bool)
    (v : AssignmentView)
    (hv : get_user_assignment s uid = some v)
    (hst : pyStatusOr v.credentials_status = "pending_secret")
    (hval : validate_api_secret (pyStrip raw) = false)
    (hstrip : pyStrip raw ≠ "") :
    handle_private_message s uid raw vOk detail extDoc hb =
      (s, [Out.reply uid
        "API secret formati noto\x27g\x27ri. Masalan: 2a428d03deaceb8 (15-16 ta hex belgi)"]) := by
  unfold handle_private_message
  simp [hv, hstrip, hst, hval]

theorem hpm_pending_secret_ok_verify_mem (s : Store) (uid : Int)
    (raw : String) (detail extDoc : Option String) (hb : Bool)
    (v : AssignmentView)
    (hv : get_user_assignment s uid = some v)
    (hst : pyStatusOr v.credentials_status = "pending_secret")
    (hval : validate_api_secret (pyStrip raw) = true) :
    Out.verifyCall (v.api_key.getD "") (pyStrip raw) ∈
      (handle_private_message s uid raw true detail extDoc hb).2 := by
  obtain ⟨a, cr, ur, hfa, hfc, hfu, hview⟩ := get_user_assignment_inv hv
  have hseceq := store_api_secret_eq s uid (pyStrip raw) true
    (any_user_of_find? hfa)
  have hstrip : ¬ (pyStrip raw = "") := validate_api_secret_ne_empty hval
  unfold handle_private_message
  simp [hv, hstrip, hst, hval, hseceq]

theorem get_user_assignment_after_upd (s : Store) (uid : Int)
    (v : AssignmentView) (f : AssignmentRow → AssignmentRow)
    (hv : get_user_assignment s uid = some v)
    (hu : ∀ a, (f a).user_id = a.user_id)
    (hc : ∀ a, (f a).chat_id = a.chat_id) :
    ∃ a, s.assignments.find? (fun x => x.user_id = uid) = some a
      ∧ a.user_id = uid
      ∧ ∃ cr ur, v = mkView a cr ur
      ∧ get_user_assignment
          { s with assignments := s.assignments.map f } uid =
          some (mkView (f a) cr ur) := by
  obtain ⟨a, cr, ur, hfa, hfc, hfu, hview⟩ := get_user_assignment_inv hv
  have hau : a.user_id = uid := by simpa using List.find?_some hfa
  refine ⟨a, hfa, hau, cr, ur, hview, ?_⟩
  rw [get_user_assignment_map s uid f hu hc]
  simp only [hfa, hfc, hfu]

/-! ### C4 -/

/-- Whether `sub` occurs as a contiguous substring of `s` (used to state
what a message does or does not report). -/
def strContains (s sub : String) : Bool :=
  (List.range (s.data.length + 1)).any
    (fun i => sub.data.isPrefixOf (s.data.drop i))

/-- A store with user 1 assigned to chat 100, a stored key, and
credential status `pending_secret`. -/
def storePendingSecret : Store :=
  ⟨[⟨1, some "manager", some "Mana", none, "t0", "t0"⟩],
   [⟨100, some "Great Team Alpha", "t0", "t0"⟩],
   [⟨100, 1, "t0", some "3739e78cec4e139", none, some "pending_secret",
     none⟩], []⟩

/-- The assignment view of `storePendingSecret` for user 1. -/
def pendingSecretView : AssignmentView :=
  mkView ⟨100, 1, "t0", some "3739e78cec4e139", none, some "pending_secret",
      none⟩
    ⟨100, some "Great Team Alpha", "t0", "t0"⟩
    ⟨1, some "manager", some "Mana", none, "t0", "t0"⟩

/-- Counterexample to C4 as stated: when the verifier fails with detail
`BOOM`, the handler's outputs are exactly a verification call, a private
reply to the user, and one message to the assigned chat; the user's reply
contains the detail but the chat message is the fixed generic failure
notice that does not contain it — the failure detail is not reported to
the assigned chat. -/
theorem failed_verification_chat_detail_cx :
    (handle_private_message storePendingSecret 1 "2a428d03deaceb8" false
        (some "BOOM") none true).2 =
      [Out.verifyCall "3739e78cec4e139" "2a428d03deaceb8",
       Out.reply 1
         "API secret saqlandi, biroq ERPNext bilan ulanish amalga oshmadi. Lutfan ma\x27lumotlarni tekshiring.\nMa\x27lumot: BOOM",
       Out.send 100
         "Mana API ma\x27lumotlarini yubordi, ammo ERPNext bilan ulanish amalga oshmadi."]
    ∧ strContains
        "API secret saqlandi, biroq ERPNext bilan ulanish amalga oshmadi. Lutfan ma\x27lumotlarni tekshiring.\nMa\x27lumot: BOOM"
        "BOOM" = true
    ∧ strContains
        "Mana API ma\x27lumotlarini yubordi, ammo ERPNext bilan ulanish amalga oshmadi."
        "BOOM" = false := by
  refine ⟨by decide, by decide, by decide⟩

/-- C4 (amended): when the assigned user in state `pending_secret` sends a
syntactically valid secret and the external verifier returns a negative or
failed result, the secret is stored on the assignment, the status remains
`pending_secret`, the stored key (and every other field of the assignment,
and every other table) is unchanged, and the handler's outputs are exactly
the verification call, a reply to the user carrying the failure text with
the verifier's detail, and a generic failure notification to the assigned
chat that does not include the detail. -/
theorem failed_verification_behavior (s : Store) (uid : Int) (raw : String)
    (detail extDoc : Option String) (hb : Bool) (v : AssignmentView)
    (hv : get_user_assignment s uid = some v)
    (hst : v.credentials_status = some "pending_secret")
    (hval : validate_api_secret (pyStrip raw) = true) :
    get_user_assignment
        (handle_private_message s uid raw false detail extDoc hb).1 uid =
      some { v with api_secret := some (pyStrip raw),
                    credentials_status := some "pending_secret" }
    ∧ (handle_private_message s uid raw false detail extDoc hb).1.users =
        s.users
    ∧ (handle_private_message s uid raw false detail extDoc hb).1.chats =
        s.chats
    ∧ (handle_private_message s uid raw false detail extDoc hb).1.drafts =
        s.drafts
    ∧ (handle_private_message s uid raw false detail extDoc hb).2 =
        [Out.verifyCall (v.api_key.getD "") (pyStrip raw),
         Out.reply uid
           ("API secret saqlandi, biroq ERPNext bilan ulanish amalga oshmadi. Lutfan ma\x27lumotlarni tekshiring."
             ++ detailExtra detail),
         Out.send v.chat_id (format_assignment_label v ++
           " API ma\x27lumotlarini yubordi, ammo ERPNext bilan ulanish amalga oshmadi.")] := by
  have hst2 : pyStatusOr v.credentials_status = "pending_secret" := by
    rw [hst]
    rfl
  have hpm := hpm_pending_secret_fail s uid raw detail extDoc hb v hv hst2 hval
  obtain ⟨a, hfa, hau, cr, ur, hview, hafter⟩ :=
    get_user_assignment_after_upd s uid v (updSecret (pyStrip raw) false uid)
      hv (updSecret_user_id _ _ _) (updSecret_chat_id _ _ _)
  rw [hpm]
  refine ⟨?_, rfl, rfl, rfl, rfl⟩
  rw [hafter]
  have hrow : updSecret (pyStrip raw) false uid a =
      { a with api_secret := some (pyStrip raw),
               credentials_status := some "pending_secret" } := by
    unfold updSecret
    rw [if_pos hau]
    rfl
  rw [hrow]
  subst hview
  rfl

/-- Witness for the amended C4 at a concrete input: user 1 sends a valid
secret, the verifier fails with detail `HTTP 401: boom`; the secret is
stored with the status still `pending_secret`, the user reply carries the
detail, and the assigned chat 100 gets the generic notice. -/
theorem failed_verification_behavior_witness :
    get_user_assignment
        (handle_private_message storePendingSecret 1 "2a428d03deaceb8" false
          (some "HTTP 401: boom") none true).1 1 =
      some { pendingSecretView with
              api_secret := some (pyStrip "2a428d03deaceb8"),
              credentials_status := some "pending_secret" }
    ∧ (handle_private_message storePendingSecret 1 "2a428d03deaceb8" false
          (some "HTTP 401: boom") none true).2 =
        [Out.verifyCall (pendingSecretView.api_key.getD "")
           (pyStrip "2a428d03deaceb8"),
         Out.reply 1
           ("API secret saqlandi, biroq ERPNext bilan ulanish amalga oshmadi. Lutfan ma\x27lumotlarni tekshiring."
             ++ detailExtra (some "HTTP 401: boom")),
         Out.send pendingSecretView.chat_id
           (format_assignment_label pendingSecretView ++
             " API ma\x27lumotlarini yubordi, ammo ERPNext bilan ulanish amalga oshmadi.")] := by
  have h := failed_verification_behavior storePendingSecret 1
    "2a428d03deaceb8" (some "HTTP 401: boom") none true pendingSecretView
    (by decide) (by decide) (by decide)
  exact ⟨h.1, h.2.2.2.2⟩

/-! ### C5 -/

/-- A store with user 1 assigned to chat 100 in state `pending_key`. -/
def storePendingKey : Store :=
  ⟨[⟨1, some "manager", some "Mana", none, "t0", "t0"⟩],
   [⟨100, some "Great Team Alpha", "t0", "t0"⟩],
   [⟨100, 1, "t0", none, none, some "pending_key", none⟩], []⟩

/-- The assignment view of `storePendingKey` for user 1. -/
def pendingKeyView : AssignmentView :=
  mkView ⟨100, 1, "t0", none, none, some "pending_key", none⟩
    ⟨100, some "Great Team Alpha", "t0", "t0"⟩
    ⟨1, some "manager", some "Mana", none, "t0", "t0"⟩

/-- Counterexample to C5 as stated: the whitespace-only private text `" "`
from the assigned user in state `pending_key` is syntactically invalid
(not 15 hex characters), yet the handler produces no reply at all — the
user is not re-prompted (the input is silently ignored; the store is
indeed unchanged). -/
theorem invalid_input_not_reprompted_cx :
    validate_api_key " " = false
    ∧ validate_api_key (pyStrip " ") = false
    ∧ (get_user_assignment storePendingKey 1).map
        (fun v => v.credentials_status) = some (some "pending_key")
    ∧ handle_private_message storePendingKey 1 " " false none none true =
        (storePendingKey, []) := by
  refine ⟨by decide, by decide, by decide, by decide⟩

/-- C5 (amended): in state `pending_key` the `pending_key → pending_secret`
transition (storing the trimmed text verbatim as the key) happens iff the
trimmed text is exactly 15 hex characters; in state `pending_secret` the
external verifier is invoked iff the trimmed text is 15 or 16 hex
characters; every syntactically invalid input that is non-empty after
trimming gets a re-prompt with the store unchanged, while an input that
trims to nothing is ignored with no reply and no mutation. -/
theorem credential_input_validation (s : Store) (uid : Int) (raw : String)
    (vOk : Bool) (detail extDoc : Option String) (hb : Bool)
    (v : AssignmentView) (hv : get_user_assignment s uid = some v) :
    (v.credentials_status = some "pending_key" →
      ((get_user_assignment
          (handle_private_message s uid raw vOk detail extDoc hb).1 uid =
         some { v with api_key := some (pyStrip raw),
                       credentials_status := some "pending_secret" })
        ↔ validate_api_key (pyStrip raw) = true)
      ∧ (validate_api_key (pyStrip raw) = false → pyStrip raw ≠ "" →
          handle_private_message s uid raw vOk detail extDoc hb =
            (s, [Out.reply uid
              "API kalit formati noto\x27g\x27ri. Masalan: 3739e78cec4e139"]))
      ∧ (pyStrip raw = "" →
          handle_private_message s uid raw vOk detail extDoc hb = (s, [])))
    ∧ (v.credentials_status = some "pending_secret" →
      ((∃ k t, Out.verifyCall k t ∈
          (handle_private_message s uid raw vOk detail extDoc hb).2)
        ↔ validate_api_secret (pyStrip raw) = true)
      ∧ (validate_api_secret (pyStrip raw) = false → pyStrip raw ≠ "" →
          handle_private_message s uid raw vOk detail extDoc hb =
            (s, [Out.reply uid
              "API secret formati noto\x27g\x27ri. Masalan: 2a428d03deaceb8 (15-16 ta hex belgi)"]))
      ∧ (pyStrip raw = "" →
          handle_private_message s uid raw vOk detail extDoc hb = (s, []))) := by
  constructor
  · intro hst
    have hst' : pyStatusOr v.credentials_status = "pending_key" := by
      rw [hst]
      rfl
    refine ⟨?_, ?_, ?_⟩
    · constructor
      · intro hveq
        cases hval : validate_api_key (pyStrip raw) with
        | true => rfl
        | false =>
          exfalso
          have hsame : get_user_assignment
              (handle_private_message s uid raw vOk detail extDoc hb).1 uid =
              some v := by
            by_cases hstrip : pyStrip raw = ""
            · rw [hpm_empty s uid raw vOk detail extDoc hb hstrip]
              exact hv
            · rw [hpm_pending_key_invalid s uid raw vOk detail extDoc hb v hv
                hst' hval hstrip]
              exact hv
          rw [hsame] at hveq
          have h2 := Option.some.inj hveq
          have h3 := congrArg AssignmentView.credentials_status h2
          rw [hst] at h3
          simp at h3
      · intro hval
        rw [hpm_pending_key_valid s uid raw vOk detail extDoc hb v hv hst'
          hval]
        obtain ⟨a, hfa, hau, cr, ur, hview, hafter⟩ :=
          get_user_assignment_after_upd s uid v (updKey (pyStrip raw) uid) hv
            (updKey_user_id _ _) (updKey_chat_id _ _)
        rw [hafter]
        have hrow : updKey (pyStrip raw) uid a =
            { a with api_key := some (pyStrip raw),
                     credentials_status := some "pending_secret" } := by
          unfold updKey
          rw [if_pos hau]
        rw [hrow]
        subst hview
        rfl
    · intro hval hstrip
      exact hpm_pending_key_invalid s uid raw vOk detail extDoc hb v hv hst'
        hval hstrip
    · intro hstrip
      exact hpm_empty s uid raw vOk detail extDoc hb hstrip
  · intro hst
    have hst' : pyStatusOr v.credentials_status = "pending_secret" := by
      rw [hst]
      rfl
    refine ⟨?_, ?_, ?_⟩
    · constructor
      · rintro ⟨k, t, hmem⟩
        cases hval : validate_api_secret (pyStrip raw) with
        | true => rfl
        | false =>
          exfalso
          by_cases hstrip : pyStrip raw = ""
          · rw [hpm_empty s uid raw vOk detail extDoc hb hstrip] at hmem
            simp at hmem
          · rw [hpm_pending_secret_invalid s uid raw vOk detail extDoc hb v hv
              hst' hval hstrip] at hmem
            simp at hmem
      · intro hval
        cases vOk with
        | true =>
          exact ⟨v.api_key.getD "", pyStrip raw,
            hpm_pending_secret_ok_verify_mem s uid raw detail extDoc hb v hv
              hst' hval⟩
        | false =>
          rw [hpm_pending_secret_fail s uid raw detail extDoc hb v hv hst'
            hval]
          exact ⟨v.api_key.getD "", pyStrip raw, by simp⟩
    · intro hval hstrip
      exact hpm_pending_secret_invalid s uid raw vOk detail extDoc hb v hv
        hst' hval hstrip
    · intro hstrip
      exact hpm_empty s uid raw vOk detail extDoc hb hstrip

/-- Witness for the amended C5: on the `pending_key` store, sending the
15-hex key `3739e78cec4e139` is exactly the accepted case of the
transition iff. -/
theorem credential_input_validation_witness :
    (get_user_assignment
        (handle_private_message storePendingKey 1 "3739e78cec4e139" false
          none none true).1 1 =
      some { pendingKeyView with
              api_key := some (pyStrip "3739e78cec4e139"),
              credentials_status := some "pending_secret" })
    ↔ validate_api_key (pyStrip "3739e78cec4e139") = true :=
  ((credential_input_validation storePendingKey 1 "3739e78cec4e139" false
      none none true pendingKeyView (by decide)).1 (by decide)).1

/-! ### Preservation lemmas for C3 -/

theorem statusAt_store_customer_doc (s : Store) (cid : Int) (d : String)
    (c : Int) : statusAt (store_customer_doc s cid d) c = statusAt s c := by
  unfold store_customer_doc
  rw [statusAt_mapped s _ (updCustomer_chat_id d cid) c]
  unfold statusAt
  congr 1
  funext a
  rw [updCustomer_status]

theorem statusAt_ensure (s : Store) (v : AssignmentView)
    (k sec : Option String) (extDoc : Option String) (hb : Bool) (c : Int) :
    statusAt (ensure_customer_exists s v k sec extDoc hb).1 c =
      statusAt s c := by
  unfold ensure_customer_exists
  split
  · rfl
  · split
    · rfl
    · split
      · rfl
      · split
        · rfl
        · exact statusAt_store_customer_doc s v.chat_id _ c

theorem inv_store_customer_doc (s : Store) (cid : Int) (d : String)
    (h : Inv s) : Inv (store_customer_doc s cid d) := by
  unfold store_customer_doc
  exact inv_map s _ (updCustomer_chat_id d cid) (updCustomer_user_id d cid)
    (fun a ha => by rw [updCustomer_status]; exact ha) h

theorem inv_ensure (s : Store) (v : AssignmentView) (k sec : Option String)
    (extDoc : Option String) (hb : Bool) (h : Inv s) :
    Inv (ensure_customer_exists s v k sec extDoc hb).1 := by
  unfold ensure_customer_exists
  split
  · exact h
  · split
    · exact h
    · split
      · exact h
      · split
        · exact h
        · exact inv_store_customer_doc s v.chat_id _ h

theorem assignments_prompt_item_group (s : Store) (now : String) (uid : Int)
    (d : Draft) (mc : Int) (ext : ProgressExt) :
    (prompt_item_group s now uid d mc ext).1.assignments = s.assignments := by
  unfold prompt_item_group
  obtain ⟨⟨ok, detail, groups⟩, fu, ci⟩ := ext
  dsimp only
  split
  · exact assignments_delete_item_draft s uid
  · exact assignments_save_item_draft s now uid _

theorem assignments_prompt_uom (s : Store) (now : String) (uid : Int)
    (d : Draft) (ext : ProgressExt) :
    (prompt_uom s now uid d ext).1.assignments = s.assignments := by
  unfold prompt_uom
  obtain ⟨fg, ⟨ok, detail, uoms⟩, ci⟩ := ext
  dsimp only
  split
  · exact assignments_delete_item_draft s uid
  · exact assignments_save_item_draft s now uid _

theorem assignments_progress (s : Store) (now : String) (uid : Int)
    (v : AssignmentView) (d : Draft) (text : String) (mc : Int)
    (ext : ProgressExt) :
    (progress_item_creation s now uid v d text mc ext).1.assignments =
      s.assignments := by
  unfold progress_item_creation
  dsimp only
  repeat' split
  all_goals
    first
    | rfl
    | exact assignments_delete_item_draft s uid
    | exact assignments_save_item_draft s now uid _
    | exact assignments_prompt_item_group s now uid _ mc ext
    | exact assignments_prompt_uom s now uid _ ext

theorem assignments_group_activity (s : Store) (now : String) (uid : Int)
    (un fn ln : Option String) (chatId : Int) (title : Option String)
    (text : String) (ext : ProgressExt) :
    (handle_group_activity s now uid un fn ln chatId title text
        ext).1.assignments = s.assignments := by
  have h2 : (record_user (record_group_chat s now chatId title) now uid un fn
      ln).assignments = s.assignments := by
    rw [assignments_record_user, assignments_record_group_chat]
  unfold handle_group_activity
  dsimp only
  repeat' split
  all_goals
    first
    | exact h2
    | (rw [assignments_progress]; exact h2)

theorem assignments_choice_callback (s : Store) (now : String)
    (fromU chatId target : Int) (action : String) (value : Int)
    (ext : ProgressExt) :
    (handle_choice_callback s now fromU chatId target action value
        ext).1.assignments = s.assignments := by
  unfold handle_choice_callback
  dsimp only
  repeat' split
  all_goals
    first
    | rfl
    | exact assignments_delete_item_draft s target
    | exact assignments_save_item_draft s now target _
    | exact assignments_progress s now target _ _ _ chatId ext

theorem statusAt_new_item (s : Store) (now : String) (chatId uid : Int)
    (extDoc : Option String) (hb : Bool) (c : Int) :
    statusAt (handle_new_item s now chatId uid extDoc hb).1 c =
      statusAt s c := by
  unfold handle_new_item
  dsimp only
  repeat' split
  all_goals
    first
    | rfl
    | (rw [statusAt_congr (assignments_save_item_draft _ now uid _) c]
       exact statusAt_ensure s _ _ _ extDoc hb c)

theorem inv_new_item (s : Store) (now : String) (chatId uid : Int)
    (extDoc : Option String) (hb : Bool) (h : Inv s) :
    Inv (handle_new_item s now chatId uid extDoc hb).1 := by
  unfold handle_new_item
  dsimp only
  repeat' split
  all_goals
    first
    | exact h
    | exact inv_congr (assignments_save_item_draft _ now uid _)
        (inv_ensure s _ _ _ extDoc hb h)

theorem hpm_no_assignment (s : Store) (uid : Int) (raw : String)
    (vOk : Bool) (detail extDoc : Option String) (hb : Bool)
    (hv : get_user_assignment s uid = none)
    (hstrip : pyStrip raw ≠ "") :
    handle_private_message s uid raw vOk detail extDoc hb =
      (s, [Out.reply uid "Siz sales manager sifatida tayinlanmagansiz."]) := by
  unfold handle_private_message
  simp [hv, hstrip]

theorem hpm_other (s : Store) (uid : Int) (raw : String) (vOk : Bool)
    (detail extDoc : Option String) (hb : Bool) (v : AssignmentView)
    (hv : get_user_assignment s uid = some v)
    (hst1 : pyStatusOr v.credentials_status ≠ "pending_key")
    (hst2 : pyStatusOr v.credentials_status ≠ "pending_secret")
    (hstrip : pyStrip raw ≠ "") :
    handle_private_message s uid raw vOk detail extDoc hb =
      (s, [Out.reply uid
        "API ma\x27lumotlari allaqachon saqlangan. Yangi Item jarayonini guruhda /new orqali boshlang."]) := by
  unfold handle_private_message
  simp [hv, hstrip, hst1, hst2]

theorem hpm_pending_secret_ok_store (s : Store) (uid : Int) (raw : String)
    (detail extDoc : Option String) (hb : Bool) (v : AssignmentView)
    (hv : get_user_assignment s uid = some v)
    (hst : pyStatusOr v.credentials_status = "pending_secret")
    (hval : validate_api_secret (pyStrip raw) = true) :
    (handle_private_message s uid raw true detail extDoc hb).1 =
      (ensure_customer_exists
        { s with assignments :=
            s.assignments.map (updSecret (pyStrip raw) true uid) }
        v (some (v.api_key.getD "")) (some (pyStrip raw)) extDoc hb).1 := by
  obtain ⟨a, cr, ur, hfa, hfc, hfu, hview⟩ := get_user_assignment_inv hv
  have hseceq := store_api_secret_eq s uid (pyStrip raw) true
    (any_user_of_find? hfa)
  have hstrip : ¬ (pyStrip raw = "") := validate_api_secret_ne_empty hval
  unfold handle_private_message
  simp [hv, hstrip, hst, hval, hseceq]

theorem handle_reset_api_none (s : Store) (uid : Int)
    (hv : get_user_assignment s uid = none) :
    handle_reset_api s uid =
      (s, [Out.reply uid "Sizga hali guruh biriktirilmagan."]) := by
  unfold handle_reset_api
  simp [hv]

theorem handle_reset_api_some (s : Store) (uid : Int) (v : AssignmentView)
    (hv : get_user_assignment s uid = some v) :
    (handle_reset_api s uid).1 =
      { s with assignments := s.assignments.map (updReset uid) } := by
  obtain ⟨a, cr, ur, hfa, hfc, hfu, hview⟩ := get_user_assignment_inv hv
  have hre := reset_credentials_eq s uid (any_user_of_find? hfa)
  unfold handle_reset_api
  simp [hv, hre]

theorem updKey_id {a : AssignmentRow} {uid : Int} (k : String)
    (h : a.user_id ≠ uid) : updKey k uid a = a := by
  unfold updKey
  rw [if_neg h]

theorem updKey_status {a : AssignmentRow} {uid : Int} (k : String)
    (h : a.user_id = uid) :
    (updKey k uid a).credentials_status = some "pending_secret" := by
  unfold updKey
  rw [if_pos h]

theorem updSecret_id {a : AssignmentRow} {uid : Int} (sec : String)
    (verified : Bool) (h : a.user_id ≠ uid) :
    updSecret sec verified uid a = a := by
  unfold updSecret
  rw [if_neg h]

theorem updSecret_status_true {a : AssignmentRow} {uid : Int} (sec : String)
    (h : a.user_id = uid) :
    (updSecret sec true uid a).credentials_status = some "active" := by
  unfold updSecret
  rw [if_pos h]
  rfl

theorem updSecret_status_false {a : AssignmentRow} {uid : Int} (sec : String)
    (h : a.user_id = uid) :
    (updSecret sec false uid a).credentials_status =
      some "pending_secret" := by
  unfold updSecret
  rw [if_pos h]
  rfl

theorem updReset_id {a : AssignmentRow} {uid : Int} (h : a.user_id ≠ uid) :
    updReset uid a = a := by
  unfold updReset
  rw [if_neg h]

theorem updReset_status {a : AssignmentRow} {uid : Int}
    (h : a.user_id = uid) :
    (updReset uid a).credentials_status = some "pending_key" := by
  unfold updReset
  rw [if_pos h]

/-- Status at chat `c` after a per-user update: either untouched (no
assignment at `c`, or its user is not the updated one), or the row at `c`
belongs to the updated user and now carries status `st`. -/
theorem statusAt_upd_user (s : Store) (uid : Int)
    (f : AssignmentRow → AssignmentRow) (st : String)
    (hc : ∀ a, (f a).chat_id = a.chat_id)
    (hid : ∀ a, a.user_id ≠ uid → f a = a)
    (hst : ∀ a, a.user_id = uid → (f a).credentials_status = some st)
    (c : Int) :
    statusAt { s with assignments := s.assignments.map f } c = statusAt s c
    ∨ (∃ r, s.assignments.find? (fun x => x.chat_id = c) = some r
        ∧ r.user_id = uid
        ∧ statusAt { s with assignments := s.assignments.map f } c =
            some (some st)
        ∧ statusAt s c = some r.credentials_status) := by
  rw [statusAt_mapped s f hc c]
  cases hr : s.assignments.find? (fun x => x.chat_id = c) with
  | none =>
    left
    unfold statusAt
    rw [hr]
    rfl
  | some r =>
    by_cases hru : r.user_id = uid
    · right
      refine ⟨r, rfl, hru, ?_, ?_⟩
      · simp [hst r hru]
      · unfold statusAt
        rw [hr]
        rfl
    · left
      unfold statusAt
      rw [hr]
      simp [hid r hru]

theorem status_concrete_of_pyStatusOr {o : Option String} {st : String}
    (hl : legalStatus o) (h : pyStatusOr o = st) :
    o = some st := by
  rcases hl with h1 | h1 | h1 <;> rw [h1] at h ⊢ <;>
    simp [pyStatusOr] at h <;> rw [h]

/-- The chat-keyed row at `c` and the user-keyed row for `uid` coincide
when the chat row references `uid`, thanks to user-id uniqueness. -/
theorem row_user_match {s : Store} {c uid : Int} {r a : AssignmentRow}
    (hinv : Inv s)
    (hr : s.assignments.find? (fun x => x.chat_id = c) = some r)
    (ha : s.assignments.find? (fun x => x.user_id = uid) = some a)
    (hru : r.user_id = uid) : r = a := by
  have hmr := List.mem_of_find?_eq_some hr
  have hma := List.mem_of_find?_eq_some ha
  have hau : a.user_id = uid := by simpa using List.find?_some ha
  exact List.inj_on_of_nodup_map hinv.2.1 hmr hma (by rw [hru, hau])

theorem assignments_start_private (s : Store) (now : String) (uid : Int)
    (un fn ln : Option String) :
    (handle_start_private s now uid un fn ln).1.assignments =
      s.assignments := by
  unfold handle_start_private
  dsimp only
  exact assignments_record_user s now uid un fn ln

theorem assignments_start_group (s : Store) (now : String) (uid : Int)
    (un fn ln : Option String) (chatId : Int) (title : Option String) :
    (handle_start_group s now uid un fn ln chatId title).1.assignments =
      s.assignments := by
  unfold handle_start_group
  dsimp only
  rw [assignments_record_group_chat, assignments_record_user]

theorem assignments_assign_command (s : Store) (now : String)
    (chatId uid : Int) (title : Option String) (adminOk : Bool) :
    (handle_assign_command s now chatId uid title adminOk).1.assignments =
      s.assignments := by
  unfold handle_assign_command
  dsimp only
  repeat' split
  all_goals
    first
    | rfl
    | exact assignments_record_group_chat s now chatId title

/-- One inbound event moves the credential status of any chat only along
the edges the spec allows. -/
theorem okEdge_step (s : Store) (e : Event) (c : Int) (hinv : Inv s) :
    okEdge (statusAt s c) (statusAt (stepE s e).1 c) e := by
  cases e with
  | privateStart now uid un fn ln =>
    exact Or.inl (statusAt_congr (assignments_start_private s now uid un fn
      ln) c)
  | groupStart now uid un fn ln chatId title =>
    exact Or.inl (statusAt_congr (assignments_start_group s now uid un fn ln
      chatId title) c)
  | assignCommand now chatId uid title adminOk =>
    exact Or.inl (statusAt_congr (assignments_assign_command s now chatId uid
      title adminOk) c)
  | groupActivity now uid un fn ln chatId title text ext =>
    exact Or.inl (statusAt_congr (assignments_group_activity s now uid un fn
      ln chatId title text ext) c)
  | choiceCallback now fromU chatId target action value ext =>
    exact Or.inl (statusAt_congr (assignments_choice_callback s now fromU
      chatId target action value ext) c)
  | newItem now chatId uid extDoc hb =>
    exact Or.inl (statusAt_new_item s now chatId uid extDoc hb c)
  | clearAllCmd uid adminOk =>
    cases adminOk with
    | false => exact Or.inl rfl
    | true => exact Or.inr (Or.inr (Or.inr (Or.inr (Or.inr ⟨rfl, rfl⟩))))
  | resetApi uid =>
    simp only [stepE]
    cases hv : get_user_assignment s uid with
    | none =>
      rw [handle_reset_api_none s uid hv]
      exact Or.inl rfl
    | some v =>
      rw [handle_reset_api_some s uid v hv]
      rcases statusAt_upd_user s uid (updReset uid) "pending_key"
          (updReset_chat_id uid) (fun a h => updReset_id h)
          (fun a h => updReset_status h) c with h | ⟨r, hr, hru, hnew, hold⟩
      · exact Or.inl h
      · exact Or.inr (Or.inr (Or.inr (Or.inr (Or.inl ⟨hnew, rfl⟩))))
  | assignCallback now chatId cand title adminOk memberOk dmOk =>
    simp only [stepE]
    unfold handle_assign_callback
    cases adminOk with
    | false => exact Or.inl rfl
    | true =>
      dsimp only [Bool.not_true]
      rw [if_neg (by simp)]
      cases hgu : get_user (record_group_chat s now chatId title) cand with
      | none =>
        exact Or.inl (statusAt_congr
          (assignments_record_group_chat s now chatId title) c)
      | some candv =>
        cases memberOk with
        | false =>
          exact Or.inl (statusAt_congr
            (assignments_record_group_chat s now chatId title) c)
        | true =>
          dsimp only [Bool.not_true]
          rw [if_neg (by simp)]
          cases hres : assign_sales_manager
              (record_group_chat s now chatId title) now chatId cand with
          | error e =>
            exact Or.inl (statusAt_congr
              (assignments_record_group_chat s now chatId title) c)
          | ok s2 =>
            obtain ⟨hassign, hfc, hfu⟩ := assign_ok_spec hres
            rw [assignments_record_group_chat] at hassign hfc
            by_cases hcc : c = chatId
            · subst hcc
              refine Or.inr (Or.inl ⟨?_, ?_⟩)
              · unfold statusAt
                rw [hfc]
                rfl
              · unfold statusAt
                rw [hassign, List.find?_append, hfc]
                simp
            · refine Or.inl ?_
              unfold statusAt
              rw [hassign, List.find?_append]
              have hrow : List.find? (fun x => x.chat_id = c)
                  [(⟨chatId, cand, now, none, none, some "pending_key",
                    none⟩ : AssignmentRow)] = none := by
                rw [List.find?_eq_none]
                intro x hx
                simp only [List.mem_singleton] at hx
                subst hx
                simp only [decide_eq_true_eq]
                exact fun h => hcc h.symm
              rw [hrow]
              simp
  | privateMessage uid raw vOk detail extDoc hb =>
    simp only [stepE]
    by_cases hstrip : pyStrip raw = ""
    · rw [hpm_empty s uid raw vOk detail extDoc hb hstrip]
      exact Or.inl rfl
    · cases hv : get_user_assignment s uid with
      | none =>
        rw [hpm_no_assignment s uid raw vOk detail extDoc hb hv hstrip]
        exact Or.inl rfl
      | some v =>
        obtain ⟨a, cr, ur, hfa, hfcc, hfuu, hview⟩ :=
          get_user_assignment_inv hv
        have hmem := List.mem_of_find?_eq_some hfa
        have hlegal := hinv.2.2 a hmem
        have hvcs : v.credentials_status = a.credentials_status := by
          rw [hview]
          rfl
        by_cases hpk : pyStatusOr v.credentials_status = "pending_key"
        · cases hval : validate_api_key (pyStrip raw) with
          | false =>
            rw [hpm_pending_key_invalid s uid raw vOk detail extDoc hb v hv
              hpk hval hstrip]
            exact Or.inl rfl
          | true =>
            rw [hpm_pending_key_valid s uid raw vOk detail extDoc hb v hv hpk
              hval]
            have hacs : a.credentials_status = some "pending_key" :=
              status_concrete_of_pyStatusOr hlegal (hvcs ▸ hpk)
            rcases statusAt_upd_user s uid (updKey (pyStrip raw) uid)
                "pending_secret" (updKey_chat_id _ _)
                (fun b h => updKey_id _ h) (fun b h => updKey_status _ h) c
              with h | ⟨r, hr, hru, hnew, hold⟩
            · exact Or.inl h
            · have hra : r = a := row_user_match hinv hr hfa hru
              refine Or.inr (Or.inr (Or.inl ⟨?_, hnew⟩))
              rw [hold, hra, hacs]
        · by_cases hps : pyStatusOr v.credentials_status = "pending_secret"
          · cases hval : validate_api_secret (pyStrip raw) with
            | false =>
              rw [hpm_pending_secret_invalid s uid raw vOk detail extDoc hb v
                hv hps hval hstrip]
              exact Or.inl rfl
            | true =>
              have hacs : a.credentials_status = some "pending_secret" :=
                status_concrete_of_pyStatusOr hlegal (hvcs ▸ hps)
              cases vOk with
              | false =>
                rw [hpm_pending_secret_fail s uid raw detail extDoc hb v hv
                  hps hval]
                rcases statusAt_upd_user s uid
                    (updSecret (pyStrip raw) false uid) "pending_secret"
                    (updSecret_chat_id _ _ _) (fun b h => updSecret_id _ _ h)
                    (fun b h => updSecret_status_false _ h) c
                  with h | ⟨r, hr, hru, hnew, hold⟩
                · exact Or.inl h
                · have hra : r = a := row_user_match hinv hr hfa hru
                  refine Or.inl ?_
                  rw [hnew, hold, hra, hacs]
              | true =>
                rw [hpm_pending_secret_ok_store s uid raw detail extDoc hb v
                  hv hps hval, statusAt_ensure]
                rcases statusAt_upd_user s uid
                    (updSecret (pyStrip raw) true uid) "active"
                    (updSecret_chat_id _ _ _) (fun b h => updSecret_id _ _ h)
                    (fun b h => updSecret_status_true _ h) c
                  with h | ⟨r, hr, hru, hnew, hold⟩
                · exact Or.inl h
                · have hra : r = a := row_user_match hinv hr hfa hru
                  refine Or.inr (Or.inr (Or.inr (Or.inl ⟨?_, hnew, rfl⟩)))
                  rw [hold, hra, hacs]
          · rw [hpm_other s uid raw vOk detail extDoc hb v hv hpk hps hstrip]
            exact Or.inl rfl

theorem inv_assign_ok {s s2 : Store} {now : String} {c u : Int}
    (hr : assign_sales_manager s now c u = .ok s2) (h : Inv s) : Inv s2 := by
  have h1 := inv_applyOp s (.assign now c u) h
  simp only [applyOp, hr] at h1
  exact h1

/-- Every inbound event preserves the assignments-table invariant. -/
theorem inv_stepE (s : Store) (e : Event) (hinv : Inv s) :
    Inv (stepE s e).1 := by
  cases e with
  | privateStart now uid un fn ln =>
    exact inv_congr (assignments_start_private s now uid un fn ln) hinv
  | groupStart now uid un fn ln chatId title =>
    exact inv_congr (assignments_start_group s now uid un fn ln chatId title)
      hinv
  | assignCommand now chatId uid title adminOk =>
    exact inv_congr (assignments_assign_command s now chatId uid title
      adminOk) hinv
  | groupActivity now uid un fn ln chatId title text ext =>
    exact inv_congr (assignments_group_activity s now uid un fn ln chatId
      title text ext) hinv
  | choiceCallback now fromU chatId target action value ext =>
    exact inv_congr (assignments_choice_callback s now fromU chatId target
      action value ext) hinv
  | newItem now chatId uid extDoc hb =>
    exact inv_new_item s now chatId uid extDoc hb hinv
  | clearAllCmd uid adminOk =>
    cases adminOk with
    | false => exact hinv
    | true => exact inv_applyOp s .clearAllAssignments hinv
  | resetApi uid =>
    simp only [stepE]
    cases hv : get_user_assignment s uid with
    | none =>
      rw [handle_reset_api_none s uid hv]
      exact hinv
    | some v =>
      exact inv_of_assignments_map _
        (by rw [handle_reset_api_some s uid v hv]) (updReset_chat_id uid)
        (updReset_user_id uid) (updReset_legal uid) hinv
  | assignCallback now chatId cand title adminOk memberOk dmOk =>
    simp only [stepE]
    unfold handle_assign_callback
    cases adminOk with
    | false => exact hinv
    | true =>
      dsimp only [Bool.not_true]
      rw [if_neg (by simp)]
      have hs1 : Inv (record_group_chat s now chatId title) :=
        inv_congr (assignments_record_group_chat s now chatId title) hinv
      cases hgu : get_user (record_group_chat s now chatId title) cand with
      | none => exact hs1
      | some candv =>
        cases memberOk with
        | false => exact hs1
        | true =>
          dsimp only [Bool.not_true]
          rw [if_neg (by simp)]
          cases hres : assign_sales_manager
              (record_group_chat s now chatId title) now chatId cand with
          | error e => exact hs1
          | ok s2 => exact inv_assign_ok hres hs1
  | privateMessage uid raw vOk detail extDoc hb =>
    simp only [stepE]
    by_cases hstrip : pyStrip raw = ""
    · rw [hpm_empty s uid raw vOk detail extDoc hb hstrip]
      exact hinv
    · cases hv : get_user_assignment s uid with
      | none =>
        rw [hpm_no_assignment s uid raw vOk detail extDoc hb hv hstrip]
        exact hinv
      | some v =>
        by_cases hpk : pyStatusOr v.credentials_status = "pending_key"
        · cases hval : validate_api_key (pyStrip raw) with
          | false =>
            rw [hpm_pending_key_invalid s uid raw vOk detail extDoc hb v hv
              hpk hval hstrip]
            exact hinv
          | true =>
            exact inv_of_assignments_map _
              (by rw [hpm_pending_key_valid s uid raw vOk detail extDoc hb v
                hv hpk hval])
              (updKey_chat_id _ _) (updKey_user_id _ _) (updKey_legal _ _)
              hinv
        · by_cases hps : pyStatusOr v.credentials_status = "pending_secret"
          · cases hval : validate_api_secret (pyStrip raw) with
            | false =>
              rw [hpm_pending_secret_invalid s uid raw vOk detail extDoc hb v
                hv hps hval hstrip]
              exact hinv
            | true =>
              cases vOk with
              | false =>
                exact inv_of_assignments_map _
                  (by rw [hpm_pending_secret_fail s uid raw detail extDoc hb
                    v hv hps hval])
                  (updSecret_chat_id _ _ _) (updSecret_user_id _ _ _)
                  (updSecret_legal _ _ _) hinv
              | true =>
                rw [hpm_pending_secret_ok_store s uid raw detail extDoc hb v
                  hv hps hval]
                refine inv_ensure _ v _ _ extDoc hb ?_
                exact inv_map s _ (updSecret_chat_id _ _ _)
                  (updSecret_user_id _ _ _) (updSecret_legal _ _ _) hinv
          · rw [hpm_other s uid raw vOk detail extDoc hb v hv hpk hps hstrip]
            exact hinv

/-- The invariant holds in every state reachable from the empty store by
inbound events. -/
theorem inv_runE (es : List Event) : Inv (runE es) := by
  unfold runE
  have h : ∀ t : Store, Inv t →
      Inv (es.foldl (fun t e => (stepE t e).1) t) := by
    induction es with
    | nil => exact fun t h => h
    | cons e es ih => exact fun t h => ih ((stepE t e).1) (inv_stepE t e h)
  exact h Store.empty inv_empty

/-! ### C3 -/

/-- C3: over every sequence of inbound events from the empty store, the
credential status of any chat's assignment changes only along the allowed
edges — creation into `pending_key`, `pending_key → pending_secret`,
`pending_secret → active` on an affirmative verification (the failed
verification self-loop leaves it identical), the explicit reset back to
`pending_key`, and removal by the admin bulk clear; in particular the
status becomes `active` only on a private-message event whose external
verification call returned an affirmative result. -/
theorem credentials_status_transitions (es : List Event) (e : Event)
    (c : Int) :
    okEdge (statusAt (runE es) c) (statusAt (stepE (runE es) e).1 c) e
    ∧ (statusAt (stepE (runE es) e).1 c = some (some "active") →
        statusAt (runE es) c ≠ some (some "active") →
        isAffirmVerify e = true) := by
  have h1 := okEdge_step (runE es) e c (inv_runE es)
  refine ⟨h1, fun hnew hold => ?_⟩
  rcases h1 with h | ⟨h2, h3⟩ | ⟨h2, h3⟩ | ⟨h2, h3, h4⟩ | ⟨h2, h3⟩ | ⟨h2, h3⟩
  · rw [h] at hnew
    exact absurd hnew hold
  · rw [hnew] at h3
    simp at h3
  · rw [hnew] at h3
    simp at h3
  · exact h4
  · rw [hnew] at h2
    simp at h2
  · rw [hnew] at h2
    simp at h2

/-! ### Order facts for the SQL sort key -/

theorem charListLt_irrefl (l : List Char) : charListLt l l = false := by
  induction l with
  | nil => rfl
  | cons a as ih => simp [charListLt, ih]

theorem charListLt_trans {a b c : List Char} (h1 : charListLt a b = true)
    (h2 : charListLt b c = true) : charListLt a c = true := by
  induction a generalizing b c with
  | nil =>
    cases c with
    | nil =>
      cases b with
      | nil => exact h1
      | cons b0 bs => exact absurd h2 (by simp [charListLt])
    | cons c0 cs => simp [charListLt]
  | cons a0 as ih =>
    cases b with
    | nil => exact absurd h1 (by simp [charListLt])
    | cons b0 bs =>
      cases c with
      | nil => exact absurd h2 (by simp [charListLt])
      | cons c0 cs =>
        simp only [charListLt, Bool.or_eq_true, Bool.and_eq_true,
          decide_eq_true_eq] at h1 h2 ⊢
        rcases h1 with h1 | ⟨he1, h1⟩ <;> rcases h2 with h2 | ⟨he2, h2⟩
        · exact Or.inl (lt_trans h1 h2)
        · exact Or.inl (he2 ▸ h1)
        · exact Or.inl (he1 ▸ h2)
        · exact Or.inr ⟨he1.trans he2, ih h1 h2⟩

theorem charListLt_connex {a b : List Char} (h1 : charListLt a b = false)
    (h2 : charListLt b a = false) : a = b := by
  induction a generalizing b with
  | nil =>
    cases b with
    | nil => rfl
    | cons b0 bs => simp [charListLt] at h1
  | cons a0 as ih =>
    cases b with
    | nil => simp [charListLt] at h2
    | cons b0 bs =>
      simp only [charListLt, Bool.or_eq_false_iff, Bool.and_eq_false_iff,
        decide_eq_false_iff_not, decide_eq_true_eq] at h1 h2
      have heq : a0 = b0 := le_antisymm (not_lt.mp h2.1) (not_lt.mp h1.1)
      subst heq
      rcases h1.2 with h | h
      · exact absurd rfl h
      · rcases h2.2 with h' | h'
        · exact absurd rfl h'
        · rw [ih h h']

theorem SqlVal.le_total (x y : SqlVal) : SqlVal.le x y ∨ SqlVal.le y x := by
  cases x with
  | int a =>
    cases y with
    | int b => exact Int.le_total a b
    | str b => exact Or.inl trivial
  | str a =>
    cases y with
    | int b => exact Or.inr trivial
    | str b =>
      simp only [SqlVal.le, strLeB, Bool.not_eq_true']
      cases h : charListLt b.data a.data with
      | false => exact Or.inl rfl
      | true =>
        cases h2 : charListLt a.data b.data with
        | false => exact Or.inr rfl
        | true =>
          have h3 := charListLt_trans h2 h
          rw [charListLt_irrefl] at h3
          cases h3

theorem SqlVal.le_trans {x y z : SqlVal} (h1 : SqlVal.le x y)
    (h2 : SqlVal.le y z) : SqlVal.le x z := by
  cases x with
  | int a =>
    cases z with
    | str c => exact trivial
    | int c =>
      cases y with
      | int b => exact Int.le_trans h1 h2
      | str b => exact absurd h2 (by simp [SqlVal.le])
  | str a =>
    cases y with
    | int b => exact absurd h1 (by simp [SqlVal.le])
    | str b =>
      cases z with
      | int c => exact absurd h2 (by simp [SqlVal.le])
      | str c =>
        simp only [SqlVal.le, strLeB, Bool.not_eq_true'] at h1 h2 ⊢
        cases hca : charListLt c.data a.data with
        | false => rfl
        | true =>
          exfalso
          cases hbc : charListLt b.data c.data with
          | true =>
            have h3 := charListLt_trans hbc hca
            rw [h3] at h1
            cases h1
          | false =>
            have hbceq : b.data = c.data := charListLt_connex hbc h2
            rw [← hbceq] at hca
            rw [hca] at h1
            cases h1

instance : IsTotal UserRow rowLe :=
  ⟨fun a b => SqlVal.le_total (orderKey a) (orderKey b)⟩

instance : IsTrans UserRow rowLe :=
  ⟨fun _ _ _ h1 h2 => SqlVal.le_trans h1 h2⟩

/-! ### C9 -/

/-- A recorded user with no first name, a last name `zz` and username
`aa` (the storage API accepts a `None` first name). -/
def userZz : UserRow := ⟨1, some "aa", none, some "zz", "t0", "t0"⟩

/-- A recorded user with first name `bb` and no username. -/
def userBb : UserRow := ⟨2, none, some "bb", none, "t0", "t0"⟩

/-- A store holding only those two unassigned users. -/
def storeOrder : Store := ⟨[userZz, userBb], [], [], []⟩

/-- Counterexample to C9 as stated: `list_unassigned_users` returns
`userZz` (display label `"zz"`) before `userBb` (display label `"bb"`),
so the result is not ascending by display label.  The SQL `ORDER BY` key
concatenates `first_name` first, and SQL string concatenation with `NULL`
is `NULL`, so `userZz` sorts under its username `"aa"` even though its
display label is its last name `"zz"`. -/
theorem list_unassigned_order_cx :
    list_unassigned_users storeOrder 25 =
      [toCandidate userZz, toCandidate userBb]
    ∧ (toCandidate userZz).display_label = "zz"
    ∧ (toCandidate userBb).display_label = "bb"
    ∧ strLtB (toCandidate userBb).display_label
        (toCandidate userZz).display_label = true := by
  refine ⟨by decide, by decide, by decide, by decide⟩

/-- C9 (amended): `list_unassigned_users` returns at most `limit` entries,
exactly drawn from the recorded users with no assignment row (and all of
them when they fit in `limit`), ordered ascending by the SQL key
`COALESCE(NULLIF(TRIM(first_name || ' ' || IFNULL(last_name, '')), ''),
username, telegram_id)` — which falls back to the username whenever the
first name is NULL (even if a last name exists), and sorts integer keys
before text keys germane to SQLite; ties keep no guaranteed order. -/
theorem list_unassigned_spec (s : Store) (limit : Nat) :
    (list_unassigned_users s limit).length ≤ limit
    ∧ (list_unassigned_users s limit).Pairwise
        (fun a b => SqlVal.le (candKey a) (candKey b))
    ∧ (∀ cand ∈ list_unassigned_users s limit,
        ∃ u ∈ s.users, toCandidate u = cand
          ∧ ∀ a ∈ s.assignments, a.user_id ≠ u.telegram_id)
    ∧ ((s.users.filter (unassignedIn s)).length ≤ limit →
        ∀ u ∈ s.users, (∀ a ∈ s.assignments, a.user_id ≠ u.telegram_id) →
          toCandidate u ∈ list_unassigned_users s limit) := by
  have hperm := List.perm_insertionSort rowLe (s.users.filter (unassignedIn s))
  refine ⟨?_, ?_, ?_, ?_⟩
  · unfold list_unassigned_users
    rw [List.length_map]
    exact List.length_take_le limit _
  · unfold list_unassigned_users
    rw [List.pairwise_map]
    refine List.Pairwise.sublist (List.take_sublist limit _) ?_
    exact List.sorted_insertionSort rowLe _
  · intro cand hcand
    unfold list_unassigned_users at hcand
    obtain ⟨u, hu, rfl⟩ := List.mem_map.mp hcand
    have hu2 : u ∈ (s.users.filter (unassignedIn s)).insertionSort rowLe :=
      List.take_subset limit _ hu
    have hu3 := hperm.subset hu2
    obtain ⟨hu4, hu5⟩ := List.mem_filter.mp hu3
    refine ⟨u, hu4, rfl, ?_⟩
    unfold unassignedIn at hu5
    rw [Bool.not_eq_true'] at hu5
    intro a ha
    have := List.any_eq_false.mp hu5 a ha
    simpa using this
  · intro hlen u hu hun
    have hmemf : u ∈ s.users.filter (unassignedIn s) := by
      rw [List.mem_filter]
      refine ⟨hu, ?_⟩
      unfold unassignedIn
      simp only [Bool.not_eq_true']
      rw [List.any_eq_false]
      intro a ha
      simpa using hun a ha
    have hmems : u ∈ (s.users.filter (unassignedIn s)).insertionSort rowLe :=
      hperm.symm.subset hmemf
    have hlen2 :
        ((s.users.filter (unassignedIn s)).insertionSort rowLe).length ≤
          limit := by
      rw [hperm.length_eq]
      exact hlen
    unfold list_unassigned_users
    rw [List.take_of_length_le hlen2]
    exact List.mem_map_of_mem toCandidate hmems

/-- Witness for the amended C9 on the two-user store: both users are
returned (they fit in the limit), and every returned candidate is a
recorded unassigned user. -/
theorem list_unassigned_spec_witness :
    (∃ u ∈ storeOrder.users, toCandidate u = toCandidate userZz
      ∧ ∀ a ∈ storeOrder.assignments, a.user_id ≠ u.telegram_id)
    ∧ toCandidate userBb ∈ list_unassigned_users storeOrder 25 :=
  ⟨(list_unassigned_spec storeOrder 25).2.2.1 (toCandidate userZz)
      (by decide),
   (list_unassigned_spec storeOrder 25).2.2.2 (by decide) userBb (by decide)
      (by decide)⟩

end AssignBot
